import Mathlib

/-!
# The subscriber dispatch engine of zeq (`src/zeq/subscriber.cpp`)

A shallow embedding of `zeq::Subscriber::Impl`: the socket table `_subscribers`,
the two registries `_eventFuncs` and `_serializables`, the poll entries
`_entries`, and the member functions that maintain them.

The ZeroMQ calls the class makes are kept as a chronological record inside the
state, so that "which filter was applied to which socket" is a function of the
calls the code issued.  The transport is modelled by its documented return
codes: `zmq_socket` hands out a fresh non-null handle, `zmq_connect` succeeds
or fails as the environment decides, and `zmq_setsockopt` answers `-1`
(`ENOTSOCK`) for a null handle and `0` for a handle obtained from `zmq_socket`.
-/

namespace Zeq

/-! ## `std::map` -/

/-- A `std::map<K, V>`: its key/value pairs in iteration order. -/
abbrev StdMap (K V : Type) := List (K × V)

namespace StdMap

variable {K V : Type} [DecidableEq K]

/-- The member `find`: the mapped value, `none` standing for `end()`. -/
def find (m : StdMap K V) (k : K) : Option V :=
  match m with
  | [] => none
  | (k1, v) :: r => if k1 = k then some v else find r k

/-- The member `count`: 1 when the key is present, 0 otherwise. -/
def count (m : StdMap K V) (k : K) : Nat :=
  match find m k with
  | some _ => 1
  | none => 0

/-- The assignment `m[k] = v`: replaces the mapped value of an existing key,
otherwise inserts the pair at its place in the key order `less`. -/
def set (less : K → K → Bool) (m : StdMap K V) (k : K) (v : V) : StdMap K V :=
  match m with
  | [] => [(k, v)]
  | (k1, v1) :: r =>
    if k = k1 then (k, v) :: r
    else if less k k1 then (k, v) :: (k1, v1) :: r
    else (k1, v1) :: set less r k v

/-- The map left by `erase( key )`. -/
def erase (m : StdMap K V) (k : K) : StdMap K V :=
  m.filter (fun p => decide (p.1 ≠ k))

/-- Reading `m[k]` for a key that is present (a value-initialised `V` otherwise). -/
def get (dflt : V) (m : StdMap K V) (k : K) : V :=
  match find m k with
  | some v => v
  | none => dflt

/-- The keys in iteration order. -/
def keys (m : StdMap K V) : List K := m.map Prod.fst

end StdMap

/-- The key order of `std::map< std::string, void* >`: `std::less` on strings,
lexicographic on the characters. -/
def stringLess (a b : String) : Bool := decide (a.toList < b.toList)

/-- The key order of the maps keyed by `uint128_t`: the order of the values. -/
def uint128Less (a b : Nat) : Bool := decide (a < b)

/-! ## The transport (ZeroMQ) -/

/-- The two socket options the subscriber sets. -/
inductive SockOpt where
  | ZMQ_SUBSCRIBE
  | ZMQ_UNSUBSCRIBE
  deriving DecidableEq, Repr

/-- One call into the transport: the creation of a socket, a connect attempt
(whatever its outcome), a filter change that took effect, the closing of a
socket. `topic` is the `uint128_t` whose address and size are handed to
`zmq_setsockopt`. -/
inductive ZmqCall where
  | socket (sock : Nat)
  | connect (sock : Nat) (endpoint : String)
  | setsockopt (sock : Nat) (opt : SockOpt) (topic : Nat)
  | close (sock : Nat)
  deriving DecidableEq, Repr

/-- The transport context: how many sockets it has created, and the calls made
on them in chronological order. -/
structure Zmq where
  allocated : Nat
  calls : List ZmqCall
  deriving DecidableEq, Repr

/-- The result of `zmq_socket( context, ZMQ_SUB )`: a handle never handed out
before, hence not the null pointer `0`. -/
def zmq_socket (z : Zmq) : Nat × Zmq :=
  (z.allocated + 1,
   { allocated := z.allocated + 1, calls := z.calls ++ [ZmqCall.socket (z.allocated + 1)] })

/-- The result of `zmq_connect( sock, endpoint )`: `-1` for a null socket or an
endpoint the environment refuses, `0` otherwise. -/
def zmq_connect (connects : String → Bool) (z : Zmq) (sock : Nat) (endpoint : String) :
    Int × Zmq :=
  if sock = 0 ∨ connects endpoint = false then
    (-1, { z with calls := z.calls ++ [ZmqCall.connect sock endpoint] })
  else (0, { z with calls := z.calls ++ [ZmqCall.connect sock endpoint] })

/-- The result of `zmq_setsockopt( sock, opt, &topic, sizeof( topic ))`: `-1` for a
null socket, `0` and the filter change on the socket otherwise. -/
def zmq_setsockopt (z : Zmq) (sock : Nat) (opt : SockOpt) (topic : Nat) : Int × Zmq :=
  if sock = 0 then (-1, z)
  else (0, { z with calls := z.calls ++ [ZmqCall.setsockopt sock opt topic] })

/-- The effect of `zmq_close( sock )`. -/
def zmq_close (z : Zmq) (sock : Nat) : Zmq :=
  if sock = 0 then z else { z with calls := z.calls ++ [ZmqCall.close sock] }

/-! ## The state of `Subscriber::Impl` -/

/-- An `EventFunc`: the identity of the registered `std::function`. -/
abbrev EventFunc := Nat

/-- A `detail::Socket` poll entry. -/
structure Socket where
  socket : Nat
  events : Nat
  deriving DecidableEq, Repr

/-- The poll flag `ZMQ_POLLIN`. -/
def ZMQ_POLLIN : Nat := 1

/-- A `servus::Serializable` as the subscriber sees it: the address of the object
and the type identifier it declares. -/
structure Serializable where
  addr : Nat
  typeIdentifier : Nat
  deriving DecidableEq, Repr

/-- The `getTypeIdentifier()` member. -/
def Serializable.getTypeIdentifier (o : Serializable) : Nat := o.typeIdentifier

/-- The data members of `Subscriber::Impl`, with the transport context its
sockets live in. A null socket is `0`; event types are 128-bit values. -/
structure Impl where
  subscribers : StdMap String Nat
  eventFuncs : StdMap Nat EventFunc
  serializables : StdMap Nat Nat
  entries : List Socket
  selfInstance : Nat
  session : String
  zmq : Zmq
  deriving DecidableEq, Repr

/-- How a member function ends: it returns a value, or it raises
(`ZEQTHROW`); either way the object is left in `state`. -/
inductive Result (α : Type) where
  | ok (value : α) (state : Impl)
  | raised (what : String) (state : Impl)
  deriving DecidableEq, Repr

/-- The state an outcome leaves behind. -/
def Result.state {α : Type} : Result α → Impl
  | Result.ok _ s => s
  | Result.raised _ s => s

/-- The text of the `std::runtime_error` raised when a filter cannot be set
(the `zmq_strerror` suffix left out). -/
def filterError : String := "Cannot update topic filter: "

/-- The loop `for( const auto& socket : _subscribers )` around one
`zmq_setsockopt` call: `nullCheck` says whether the body is guarded by
`socket.second &&`. The transport state at a failure is the `error` value. -/
def setOnSockets (nullCheck : Bool) (opt : SockOpt) (event : Nat) :
    StdMap String Nat → Zmq → Except Zmq Zmq
  | [], z => Except.ok z
  | (_, sock) :: rest, z =>
    if nullCheck && sock == 0 then setOnSockets nullCheck opt event rest z
    else
      let r := zmq_setsockopt z sock opt event
      if r.1 == -1 then Except.error r.2
      else setOnSockets nullCheck opt event rest r.2

/-- The member `registerHandler( event, func )`. -/
def registerHandler (s : Impl) (event : Nat) (func : EventFunc) : Result Bool :=
  if StdMap.count s.eventFuncs event ≠ 0 then Result.ok false s
  else
    match setOnSockets true SockOpt.ZMQ_SUBSCRIBE event s.subscribers s.zmq with
    | Except.error z => Result.raised filterError { s with zmq := z }
    | Except.ok z =>
      Result.ok true { s with eventFuncs := StdMap.set uint128Less s.eventFuncs event func, zmq := z }

/-- The member `deregisterHandler( event )`. -/
def deregisterHandler (s : Impl) (event : Nat) : Result Bool :=
  if StdMap.count s.eventFuncs event = 0 then Result.ok false s
  else
    let s1 := { s with eventFuncs := StdMap.erase s.eventFuncs event }
    match setOnSockets true SockOpt.ZMQ_UNSUBSCRIBE event s1.subscribers s1.zmq with
    | Except.error z => Result.raised filterError { s1 with zmq := z }
    | Except.ok z => Result.ok true { s1 with zmq := z }

/-- The member `hasHandler( event )`. -/
def hasHandler (s : Impl) (event : Nat) : Bool :=
  decide (StdMap.count s.eventFuncs event > 0)

/-- The private member `_subscribe( event )`: no null check on the socket. -/
def _subscribe (s : Impl) (event : Nat) : Result Unit :=
  match setOnSockets false SockOpt.ZMQ_SUBSCRIBE event s.subscribers s.zmq with
  | Except.error z => Result.raised filterError { s with zmq := z }
  | Except.ok z => Result.ok () { s with zmq := z }

/-- The private member `_unsubscribe( event )`: no null check on the socket. -/
def _unsubscribe (s : Impl) (event : Nat) : Result Unit :=
  match setOnSockets false SockOpt.ZMQ_UNSUBSCRIBE event s.subscribers s.zmq with
  | Except.error z => Result.raised filterError { s with zmq := z }
  | Except.ok z => Result.ok () { s with zmq := z }

/-- The member `subscribe( serializable )`. -/
def subscribe (s : Impl) (serializable : Serializable) : Result Bool :=
  let type := serializable.getTypeIdentifier
  if StdMap.count s.serializables type ≠ 0 then Result.ok false s
  else
    match _subscribe s type with
    | Result.raised what s1 => Result.raised what s1
    | Result.ok _ s1 =>
      Result.ok true
        { s1 with serializables := StdMap.set uint128Less s1.serializables type serializable.addr }

/-- The member `unsubscribe( serializable )`. -/
def unsubscribe (s : Impl) (serializable : Serializable) : Result Bool :=
  let type := serializable.getTypeIdentifier
  if StdMap.count s.serializables type = 0 then Result.ok false s
  else
    let s1 := { s with serializables := StdMap.erase s.serializables type }
    match _unsubscribe s1 type with
    | Result.raised what s2 => Result.raised what s2
    | Result.ok _ s2 => Result.ok true s2

/-- The member `addSockets( entries )`. -/
def addSockets (s : Impl) (entries : List Socket) : List Socket :=
  entries ++ s.entries

/-! ## Discovery and connections -/

/-- The discovery browser `servus::Servus` as `update` reads it: the instances it
reports after `browse( 0 )`, each with its TXT key/value pairs. -/
structure Servus where
  records : List (String × List (String × String))
  deriving DecidableEq, Repr

/-- The member `getInstances()`. -/
def Servus.getInstances (b : Servus) : List String := b.records.map Prod.fst

/-- The member `containsKey( instance, key )`. -/
def Servus.containsKey (b : Servus) (inst key : String) : Bool :=
  match StdMap.find b.records inst with
  | some txt => (StdMap.find txt key).isSome
  | none => false

/-- The member `get( instance, key )`: the value, or the empty string when the
instance or the key is unknown. -/
def Servus.get (b : Servus) (inst key : String) : String :=
  match StdMap.find b.records inst with
  | some txt => StdMap.get "" txt key
  | none => ""

/-- A `zeq::URI` as the constructors read it: `getHost()` and `getPort()`. -/
structure URI where
  host : String
  port : Nat
  deriving DecidableEq, Repr

/-- What the subscriber takes from outside `subscriber.cpp`: the constants of
the headers (`KEY_SESSION`, `KEY_INSTANCE`, `DEFAULT_SCHEMA`, `DEFAULT_SESSION`,
`NULL_SESSION`), `getDefaultSession()`, the two overloads of `buildZmqURI`, the
conversion `servus::uint128_t( std::string )`, `servus::Servus::isAvailable()`,
whether `zmq_connect` reaches an endpoint, and the browser. -/
structure Env where
  KEY_SESSION : String
  KEY_INSTANCE : String
  DEFAULT_SCHEMA : String
  DEFAULT_SESSION : String
  NULL_SESSION : String
  getDefaultSession : String
  buildZmqURI : String → String → Int → String
  buildZmqURIOf : URI → String
  uint128 : String → Nat
  isAvailable : Bool
  connects : String → Bool
  browser : Servus

deriving instance DecidableEq for Except

/-- The white space `std::stoi` skips: the space and the characters `\t` to
`\r`. -/
def isspace (c : Char) : Bool := c.toNat == 32 || (9 ≤ c.toNat && c.toNat ≤ 13)

/-- The exception `std::stoi` raises when the string holds no number. -/
def invalidArgument : String := "std::invalid_argument: stoi"

/-- The exception `std::stoi` raises when the number does not fit an `int`. -/
def outOfRange : String := "std::out_of_range: stoi"

/-- The library function `std::stoi( str )`: leading white space is skipped, an
optional sign is read, then the longest run of decimal digits, and what follows
is ignored. It raises `std::invalid_argument` when there is no digit, and
`std::out_of_range` when the value does not fit an `int` of 32 bits. -/
def stoi (str : String) : Except String Int :=
  let cs := str.toList.dropWhile isspace
  let signed : Bool × List Char :=
    match cs with
    | '-' :: rest => (true, rest)
    | '+' :: rest => (false, rest)
    | _ => (false, cs)
  let digits := signed.2.takeWhile Char.isDigit
  if digits.isEmpty then Except.error invalidArgument
  else
    let magnitude : Nat := digits.foldl (fun a c => 10 * a + (c.toNat - 48)) 0
    let value : Int := if signed.1 then -(magnitude : Int) else (magnitude : Int)
    if value < -2147483648 ∨ 2147483647 < value then Except.error outOfRange
    else Except.ok value

/-- The private member `_getZmqURI( instance )`: host and port are split at the
first colon; without a colon `pos + 1` wraps to `0` and both are the whole
string. The exception of `std::stoi( port )` is not caught. -/
def _getZmqURI (env : Env) (inst : String) : Except String String :=
  let cs := inst.toList
  let host := String.mk (cs.takeWhile (fun c => c != ':'))
  let port :=
    if cs.contains ':' then String.mk ((cs.dropWhile (fun c => c != ':')).drop 1)
    else inst
  match stoi port with
  | Except.error what => Except.error what
  | Except.ok number => Except.ok (env.buildZmqURI env.DEFAULT_SCHEMA host number)

/-- One of the two loops of `addConnection` that add the existing subscriptions to
the new socket, over the keys of a registry. -/
def subscribeKeys (sock : Nat) : List Nat → Zmq → Except Zmq Zmq
  | [], z => Except.ok z
  | key :: rest, z =>
    let r := zmq_setsockopt z sock SockOpt.ZMQ_SUBSCRIBE key
    if r.1 == -1 then Except.error r.2
    else subscribeKeys sock rest r.2

/-- The member `addConnection( context, zmqURI, instance )`. -/
def addConnection (env : Env) (s : Impl) (zmqURI : String) (identifier : Nat) :
    Result Bool :=
  if identifier = s.selfInstance then Result.ok true s
  else
    let created := zmq_socket s.zmq
    let s1 := { s with subscribers := StdMap.set stringLess s.subscribers zmqURI created.1,
                       zmq := created.2 }
    let connected := zmq_connect env.connects s1.zmq (StdMap.get 0 s1.subscribers zmqURI) zmqURI
    if connected.1 == -1 then
      let closed := zmq_close connected.2 (StdMap.get 0 s1.subscribers zmqURI)
      Result.ok false
        { s1 with subscribers := StdMap.set stringLess s1.subscribers zmqURI 0, zmq := closed }
    else
      match subscribeKeys (StdMap.get 0 s1.subscribers zmqURI)
              (StdMap.keys s1.eventFuncs) connected.2 with
      | Except.error z => Result.raised filterError { s1 with zmq := z }
      | Except.ok z2 =>
        match subscribeKeys (StdMap.get 0 s1.subscribers zmqURI)
                (StdMap.keys s1.serializables) z2 with
        | Except.error z => Result.raised filterError { s1 with zmq := z }
        | Except.ok z3 =>
          if StdMap.find s1.subscribers zmqURI = none then
            Result.ok false { s1 with zmq := z3 }
          else
            Result.ok true
              { s1 with
                entries := s1.entries ++
                  [{ socket := StdMap.get 0 s1.subscribers zmqURI, events := ZMQ_POLLIN }],
                zmq := z3 }

/-- Whether `update` passes over a new instance: the condition in front of
`continue`. -/
def sessionMismatch (env : Env) (s : Impl) (inst : String) : Bool :=
  let session := env.browser.get inst env.KEY_SESSION
  env.browser.containsKey inst env.KEY_SESSION && !(s.session == "") && session != s.session

/-- The body of the loop of `update` for one reported instance; an exception of
`_getZmqURI` leaves `update` before anything is changed for the instance. -/
def updateInstance (env : Env) (s : Impl) (inst : String) : Result Unit :=
  match _getZmqURI env inst with
  | Except.error what => Result.raised what s
  | Except.ok zmqURI =>
    if StdMap.count s.subscribers zmqURI = 0 then
      if sessionMismatch env s inst then Result.ok () s
      else
        let identifier := env.uint128 (env.browser.get inst env.KEY_INSTANCE)
        match addConnection env s zmqURI identifier with
        | Result.ok _ s1 => Result.ok () s1
        | Result.raised what s1 => Result.raised what s1
    else Result.ok () s

/-- The loop of `update` over the reported instances. -/
def updateLoop (env : Env) : List String → Impl → Result Unit
  | [], s => Result.ok () s
  | inst :: rest, s =>
    match updateInstance env s inst with
    | Result.ok _ s1 => updateLoop env rest s1
    | Result.raised what s1 => Result.raised what s1

/-- The member `update( context )`. -/
def update (env : Env) (s : Impl) : Result Unit :=
  updateLoop env env.browser.getInstances s

/-- The data members as the member initialisers leave them, before a
constructor body runs. -/
def Impl.init (selfInstance : Nat) (session : String) : Impl :=
  { subscribers := [], eventFuncs := [], serializables := [], entries := [],
    selfInstance := selfInstance, session := session, zmq := { allocated := 0, calls := [] } }

/-- The constructor `Impl( session, context )`; `selfInstance` is the value of
`detail::Sender::getUUID()`. An exception leaves no object. -/
def Impl.ofSession (env : Env) (selfInstance : Nat) (session : String) : Except String Impl :=
  let s := Impl.init selfInstance
    (if session = env.DEFAULT_SESSION then env.getDefaultSession else session)
  if s.session = env.NULL_SESSION ∨ session = "" then
    Except.error "Invalid session name for subscriber"
  else if env.isAvailable = false then Except.error "Empty servus implementation"
  else
    match update env s with
    | Result.ok _ s1 => Except.ok s1
    | Result.raised what _ => Except.error what

/-- The constructor `Impl( uri, context )`: `_session` stays empty, and the
connection is added with the instance identifier `uint128_t()`. -/
def Impl.ofURI (env : Env) (selfInstance : Nat) (uri : URI) : Except String Impl :=
  let s := Impl.init selfInstance ""
  if uri.host = "" ∨ uri.port = 0 then
    Except.error "Non-fully qualified URI used for subscriber"
  else
    match addConnection env s (env.buildZmqURIOf uri) 0 with
    | Result.ok true s1 => Except.ok s1
    | Result.ok false _ => Except.error "Cannot connect subscriber to "
    | Result.raised what _ => Except.error what

/-- The constructor `Impl( uri, session, context )`. -/
def Impl.ofURISession (env : Env) (selfInstance : Nat) (uri : URI) (session : String) :
    Except String Impl :=
  let s := Impl.init selfInstance
    (if session = env.DEFAULT_SESSION then env.getDefaultSession else session)
  if s.session = env.NULL_SESSION ∨ session = "" then
    Except.error "Invalid session name for subscriber"
  else if uri.host = "" ∨ uri.port = 0 then
    if env.isAvailable = false then Except.error "Empty servus implementation"
    else
      match update env s with
      | Result.ok _ s1 => Except.ok s1
      | Result.raised what _ => Except.error what
  else
    match addConnection env s (env.buildZmqURIOf uri) 0 with
    | Result.ok true s1 => Except.ok s1
    | Result.ok false _ => Except.error "Cannot connect subscriber to "
    | Result.raised what _ => Except.error what

/-! ## Receiving and dispatching a message -/

/-- The build switches `process` depends on: `COMMON_LITTLEENDIAN` and `NDEBUG`. -/
structure Build where
  littleEndian : Bool
  ndebug : Bool
  deriving DecidableEq, Repr

/-- One frame as `zmq_msg_recv` delivers it: its bytes and `zmq_msg_more`. -/
structure Frame where
  data : List Nat
  more : Bool
  deriving DecidableEq, Repr

/-- A `zeq::Event`: its type and the data set on it, if any. -/
structure Event where
  type : Nat
  data : Option (List Nat)
  size : Nat
  deriving DecidableEq, Repr

/-- The constructor `zeq::Event( type )`: no data. -/
def Event.new (type : Nat) : Event := { type := type, data := none, size := 0 }

/-- The member `setData( data, size )`. -/
def Event.setData (e : Event) (data : List Nat) (size : Nat) : Event :=
  { e with data := some data, size := size }

/-- The value of a byte string read least significant byte first. -/
def fromLE : List Nat → Nat
  | [] => 0
  | b :: rest => b % 256 + 256 * fromLE rest

/-- The `n` least significant bytes of a value, least significant first. -/
def toLE : Nat → Nat → List Nat
  | 0, _ => []
  | n + 1, v => v % 256 :: toLE n (v / 256)

/-- The value a host sees in the 16 bytes `memcpy` stored into a `uint128_t`. -/
def loadHost (littleEndian : Bool) (mem : List Nat) : Nat :=
  if littleEndian then fromLE mem else fromLE mem.reverse

/-- Modelled from the spec: `detail::byteswap` for a `uint128_t` (declared in
`detail/byteswap.h`, not among the sources), the conversion "from little endian
wire": the 16 bytes of the value in reverse order. -/
def byteswap (v : Nat) : Nat := fromLE (toLE 16 v).reverse

/-- The type `process` reads from frame 1: `memcpy` of `sizeof( type )` bytes,
byte-swapped unless `COMMON_LITTLEENDIAN` is defined. -/
def decodeType (b : Build) (data : List Nat) : Nat :=
  let type := loadHost b.littleEndian (data.take 16)
  if b.littleEndian then type else byteswap type

/-- The 16 bytes of frame 1 for an event type: the value in little endian order,
the byte order `process` names for the wire. -/
def wireBytes (type : Nat) : List Nat := toLE 16 type

/-- What a call of `process` invokes. -/
inductive Delivery where
  | callback (func : EventFunc) (event : Event)
  | fromBinary (serializable : Nat) (data : List Nat) (size : Nat)
  | notifyUpdated (serializable : Nat)
  deriving DecidableEq, Repr

/-- How `process` ends on the frames queued at the socket: `blocked` when
`zmq_msg_recv` finds no frame, `outOfBounds` when frame 1 is shorter than the 16
bytes `memcpy` reads, otherwise normally or by an exception, with the handlers
invoked and the frames left in the queue. -/
inductive Processed where
  | blocked
  | outOfBounds
  | done (invoked : List Delivery) (rest : List Frame)
  | raised (what : String) (invoked : List Delivery) (rest : List Frame)
  deriving DecidableEq, Repr

/-- The handlers an outcome of `process` invoked. -/
def Processed.invoked : Processed → List Delivery
  | Processed.done ds _ => ds
  | Processed.raised _ ds _ => ds
  | _ => []

/-- The member `process( socket )` on the frames queued at `socket`. -/
def process (b : Build) (s : Impl) (queue : List Frame) : Processed :=
  match queue with
  | [] => Processed.blocked
  | msg :: queue1 =>
    if msg.data.length < 16 then Processed.outOfBounds
    else
      let type := decodeType b msg.data
      let payload := msg.more
      match StdMap.find s.serializables type with
      | none =>
        let event := Event.new type
        let received : Option (Event × List Frame) :=
          if payload then
            match queue1 with
            | [] => none
            | body :: queue2 => some (event.setData body.data body.data.length, queue2)
          else some (event, queue1)
        match received with
        | none => Processed.blocked
        | some (event1, rest) =>
          match StdMap.find s.eventFuncs type with
          | some func => Processed.done [Delivery.callback func event1] rest
          | none =>
            if b.ndebug then Processed.done [] rest
            else Processed.raised "Got unsubscribed event" [] rest
      | some serializable =>
        if payload then
          match queue1 with
          | [] => Processed.blocked
          | body :: queue2 =>
            Processed.done
              [Delivery.fromBinary serializable body.data body.data.length,
               Delivery.notifyUpdated serializable] queue2
        else Processed.done [Delivery.notifyUpdated serializable] queue1

/-! ## Derived notions used in the statements -/

/-- The non-null sockets of the socket table, in iteration order: the sockets of
the connections that are connected. -/
def liveSockets (m : StdMap String Nat) : List Nat :=
  (m.map Prod.snd).filter (fun sock => sock != 0)

/-- The calls a loop over the socket table makes on the non-null sockets. -/
def checkedCalls (opt : SockOpt) (event : Nat) (m : StdMap String Nat) : List ZmqCall :=
  (liveSockets m).map (fun sock => ZmqCall.setsockopt sock opt event)

/-- The calls that subscribe one socket to a list of registry keys. -/
def keyCalls (sock : Nat) (keys : List Nat) : List ZmqCall :=
  keys.map (fun key => ZmqCall.setsockopt sock SockOpt.ZMQ_SUBSCRIBE key)

/-- The effect of one transport call on what is recorded for the filter `topic`
of the socket `sock`: only a `zmq_setsockopt` on that socket with that topic
changes it, by `step`. -/
def filterCall {σ : Type} (step : σ → SockOpt → σ) (sock topic : Nat) (a : σ) :
    ZmqCall → σ
  | ZmqCall.setsockopt h opt t => if h = sock ∧ t = topic then step a opt else a
  | _ => a

/-- Filters counted as ZeroMQ counts them: `ZMQ_SUBSCRIBE` adds one instance of
the filter, `ZMQ_UNSUBSCRIBE` removes one instance if there is one. -/
def countStep (n : Nat) : SockOpt → Nat
  | SockOpt.ZMQ_SUBSCRIBE => n + 1
  | SockOpt.ZMQ_UNSUBSCRIBE => n - 1

/-- Filters read as a set: applying a filter adds it, retracting it removes it. -/
def setStep (_ : Bool) : SockOpt → Bool
  | SockOpt.ZMQ_SUBSCRIBE => true
  | SockOpt.ZMQ_UNSUBSCRIBE => false

/-- The number of instances of the filter `topic` on `sock` after the calls. -/
def filterCount (sock topic : Nat) (calls : List ZmqCall) : Nat :=
  calls.foldl (filterCall countStep sock topic) 0

/-- Whether `topic` is in the filter set of `sock` after the calls, with the
filters read as a set. -/
def filterInSet (sock topic : Nat) (calls : List ZmqCall) : Bool :=
  calls.foldl (filterCall setStep sock topic) false

/-- The states a subscriber can be in: the member-initialised state, followed by
calls of the member functions that return normally; a constructor runs `update`
or `addConnection` on the member-initialised state. -/
inductive Reachable : Impl → Prop where
  | init (selfInstance : Nat) (session : String) : Reachable (Impl.init selfInstance session)
  | registerHandler {s : Impl} (event : Nat) (func : EventFunc) (r : Bool) (s1 : Impl) :
      Reachable s → registerHandler s event func = Result.ok r s1 → Reachable s1
  | deregisterHandler {s : Impl} (event : Nat) (r : Bool) (s1 : Impl) :
      Reachable s → deregisterHandler s event = Result.ok r s1 → Reachable s1
  | subscribe {s : Impl} (serializable : Serializable) (r : Bool) (s1 : Impl) :
      Reachable s → subscribe s serializable = Result.ok r s1 → Reachable s1
  | unsubscribe {s : Impl} (serializable : Serializable) (r : Bool) (s1 : Impl) :
      Reachable s → unsubscribe s serializable = Result.ok r s1 → Reachable s1
  | addConnection {s : Impl} (env : Env) (zmqURI : String) (identifier : Nat) (r : Bool)
      (s1 : Impl) :
      Reachable s → addConnection env s zmqURI identifier = Result.ok r s1 → Reachable s1
  | update {s : Impl} (env : Env) (s1 : Impl) :
      Reachable s → update env s = Result.ok () s1 → Reachable s1

/-- The state `subscribe` leaves when it registers the object. -/
def subscribed (s : Impl) (o : Serializable) : Impl :=
  { s with serializables := StdMap.set uint128Less s.serializables o.typeIdentifier o.addr,
           zmq := { s.zmq with calls := s.zmq.calls ++
                      checkedCalls SockOpt.ZMQ_SUBSCRIBE o.typeIdentifier s.subscribers } }

/-- The state `unsubscribe` leaves when it removes the object. -/
def unsubscribed (s : Impl) (o : Serializable) : Impl :=
  { s with serializables := StdMap.erase s.serializables o.typeIdentifier,
           zmq := { s.zmq with calls := s.zmq.calls ++
                      checkedCalls SockOpt.ZMQ_UNSUBSCRIBE o.typeIdentifier s.subscribers } }

/-- The state `addConnection` leaves after a connect that failed. -/
def refused (s : Impl) (zmqURI : String) : Impl :=
  { s with subscribers := StdMap.set stringLess s.subscribers zmqURI 0,
           zmq := { allocated := s.zmq.allocated + 1,
                    calls := s.zmq.calls ++ [ZmqCall.socket (s.zmq.allocated + 1),
                                             ZmqCall.connect (s.zmq.allocated + 1) zmqURI,
                                             ZmqCall.close (s.zmq.allocated + 1)] } }

/-- The state `addConnection` leaves after a connect that succeeded. -/
def connected (s : Impl) (zmqURI : String) : Impl :=
  { s with subscribers := StdMap.set stringLess s.subscribers zmqURI (s.zmq.allocated + 1),
           entries := s.entries ++ [{ socket := s.zmq.allocated + 1, events := ZMQ_POLLIN }],
           zmq := { allocated := s.zmq.allocated + 1,
                    calls := s.zmq.calls ++ [ZmqCall.socket (s.zmq.allocated + 1),
                                             ZmqCall.connect (s.zmq.allocated + 1) zmqURI] ++
                      keyCalls (s.zmq.allocated + 1) (StdMap.keys s.eventFuncs) ++
                      keyCalls (s.zmq.allocated + 1) (StdMap.keys s.serializables) } }

/-- A call of one of the member functions that change a subscriber. -/
inductive Call where
  | registerHandler (event : Nat) (func : EventFunc)
  | deregisterHandler (event : Nat)
  | subscribe (serializable : Serializable)
  | unsubscribe (serializable : Serializable)
  | addConnection (env : Env) (zmqURI : String) (identifier : Nat)
  | update (env : Env)

/-- The state a call leaves the subscriber in, whether it returns or raises. -/
def Call.run (s : Impl) : Call → Impl
  | Call.registerHandler event func => (Zeq.registerHandler s event func).state
  | Call.deregisterHandler event => (Zeq.deregisterHandler s event).state
  | Call.subscribe serializable => (Zeq.subscribe s serializable).state
  | Call.unsubscribe serializable => (Zeq.unsubscribe s serializable).state
  | Call.addConnection env zmqURI identifier => (Zeq.addConnection env s zmqURI identifier).state
  | Call.update env => (Zeq.update env s).state

/-- The states a subscriber passes through under any sequence of calls, those
that raise included. -/
inductive Visited : Impl → Prop where
  | init (selfInstance : Nat) (session : String) : Visited (Impl.init selfInstance session)
  | call {s : Impl} (c : Call) : Visited s → Visited (c.run s)

/-- The consistency of a subscriber state: both registries are in strictly
increasing key order, the live sockets of the table are distinct, sockets and
filter calls only name sockets the transport has created, and on every live
socket the filters match the registrations, counted (`counted`) and read as a
set (`inSet`). -/
structure Consistent (s : Impl) : Prop where
  eventFuncsSorted : (StdMap.keys s.eventFuncs).Pairwise (fun a b => a < b)
  serializablesSorted : (StdMap.keys s.serializables).Pairwise (fun a b => a < b)
  socketsDistinct : (liveSockets s.subscribers).Nodup
  socketsCreated : ∀ sock ∈ liveSockets s.subscribers, sock ≤ s.zmq.allocated
  callsCreated : ∀ sock opt topic,
    ZmqCall.setsockopt sock opt topic ∈ s.zmq.calls → sock ≤ s.zmq.allocated
  counted : ∀ sock ∈ liveSockets s.subscribers, ∀ T,
    filterCount sock T s.zmq.calls
      = StdMap.count s.eventFuncs T + StdMap.count s.serializables T
  inSet : ∀ sock ∈ liveSockets s.subscribers, ∀ T,
    filterInSet sock T s.zmq.calls = true →
      StdMap.count s.eventFuncs T = 1 ∨ StdMap.count s.serializables T = 1

/-- The 16 bytes of a `uint128_t` in the memory of a host: the bytes `loadHost`
reads back as the value. -/
def storeHost (littleEndian : Bool) (v : Nat) : List Nat :=
  if littleEndian then toLE 16 v else (toLE 16 v).reverse

/-- The bytes `zmq_setsockopt` receives through `&event, sizeof( event )` in
`registerHandler`, `_subscribe` and `addConnection`: the event type as it lies
in the memory of the host, with no conversion. -/
def topicBytes (b : Build) (event : Nat) : List Nat := storeHost b.littleEndian event

/-- The subscription filter of the transport: a message passes when its first
frame begins with the bytes of the filter. -/
def passesFilter : List Nat → List Nat → Bool
  | [], _ => true
  | _ :: _, [] => false
  | f :: filter, d :: data => f == d && passesFilter filter data

/-! ## The connection broker -/

/-- Modelled from the spec: the `PortSelection` of `zeq::connection::Broker`
(`zeq/connection/broker.h` and its implementation are not among the sources;
only the test `tests/connection/broker.cpp` is). -/
inductive PortSelection where
  | PORT_FIXED
  | PORT_FIXED_OR_RANDOM
  deriving DecidableEq, Repr

/-- Modelled from the spec: the ports of the host as a binding broker meets
them (the socket layer is not among the sources): the ports in use, and the
ephemeral port the system assigns to a bind of port `0`, which is not in use. -/
structure Ports where
  bound : List Nat
  ephemeral : Nat
  ephemeralFree : ephemeral ∉ bound
  zeroFree : 0 ∉ bound

/-- Modelled from the spec: a bind to `port` (the socket layer is not among the
sources): port `0` means an ephemeral port assigned by the system, a port in
use cannot be bound. -/
def Ports.bind (os : Ports) (port : Nat) : Option Nat :=
  if port = 0 then some os.ephemeral
  else if port ∈ os.bound then none
  else some port

/-- Modelled from the spec: a constructed `zeq::connection::Broker` (its sources
are missing), reduced to the port of the address `getAddress()` reports. -/
structure Broker where
  port : Nat
  deriving DecidableEq, Repr

/-- Modelled from the spec: the construction of a `zeq::connection::Broker` for
a port (the constructor is not among the sources). `PORT_FIXED` binds exactly
that port and fails when the bind fails; `PORT_FIXED_OR_RANDOM` tries that port
first and falls back to an ephemeral port. An exception leaves no object. -/
def Broker.onPort (os : Ports) (port : Nat) (mode : PortSelection) : Except String Broker :=
  match os.bind port with
  | some bound => Except.ok { port := bound }
  | none =>
    match mode with
    | PortSelection.PORT_FIXED => Except.error "Cannot connect broker"
    | PortSelection.PORT_FIXED_OR_RANDOM =>
      match os.bind 0 with
      | some bound => Except.ok { port := bound }
      | none => Except.error "Cannot connect broker"

/-- Modelled from the spec: the construction of a `zeq::connection::Broker` from
a service name (the constructor is not among the sources); `derive` is the
name to port derivation the broker shares with the connection service. -/
def Broker.named (derive : String → Nat) (os : Ports) (name : String)
    (mode : PortSelection) : Except String Broker :=
  Broker.onPort os (derive name) mode

/-- Whether the name of a reported instance resolves to an endpoint, that is,
whether `_getZmqURI` returns for it. -/
def resolves (env : Env) (inst : String) : Bool :=
  match _getZmqURI env inst with
  | Except.ok _ => true
  | Except.error _ => false

/-- What a subscriber state records about connect attempts: an endpoint on which
a connect was attempted is a key of the socket table, and every poll entry
holds a socket the transport has created. -/
structure Tracked (s : Impl) : Prop where
  connectsKnown : ∀ sock uri,
    ZmqCall.connect sock uri ∈ s.zmq.calls → StdMap.count s.subscribers uri ≠ 0
  entriesCreated : ∀ e ∈ s.entries, e.socket ≤ s.zmq.allocated

/-! ## Concrete states -/

/-- A subscriber with the callback `1` registered for type `7`. -/
def oneHandler : Impl := (registerHandler (Impl.init 99 "A") 7 1).state

/-- A subscriber with the callback `1` and the stateful object at address `100`
both registered for type `7`. -/
def bothKinds : Impl := (subscribe oneHandler { addr := 100, typeIdentifier := 7 }).state

/-- An environment in which every connect succeeds and nothing is discovered. -/
def openEnv : Env where
  KEY_SESSION := "zeq_session"
  KEY_INSTANCE := "zeq_instance"
  DEFAULT_SCHEMA := "tcp"
  DEFAULT_SESSION := "__zeq"
  NULL_SESSION := "__null_session"
  getDefaultSession := "user"
  buildZmqURI := fun _ host _ => host
  buildZmqURIOf := fun uri => uri.host
  uint128 := fun _ => 0
  isAvailable := true
  connects := fun _ => true
  browser := { records := [] }

/-- A subscriber connected to one publisher. -/
def oneConnection : Impl :=
  (addConnection openEnv (Impl.init 99 "A") "tcp://host:1" 0).state

/-- The connected subscriber after `registerHandler( 7, 1 )`. -/
def connectedHandler : Impl := (registerHandler oneConnection 7 1).state

/-- Then after `subscribe` of the object at `100` with type identifier `7`. -/
def connectedBoth : Impl :=
  (subscribe connectedHandler { addr := 100, typeIdentifier := 7 }).state

/-- Then after `deregisterHandler( 7 )`: the stateful object is still registered. -/
def connectedStateful : Impl := (deregisterHandler connectedBoth 7).state

/-- The connected subscriber after a second `addConnection` for the same
endpoint. -/
def reconnected : Impl := (addConnection openEnv oneConnection "tcp://host:1" 0).state

/-- An environment in which no connect succeeds. -/
def closedEnv : Env := { openEnv with connects := fun _ => false }

/-- A subscriber whose only peer could not be connected. -/
def failedPeer : Impl :=
  (addConnection closedEnv (Impl.init 99 "A") "tcp://down:1" 0).state

/-- A subscriber with the stateful object at `100` subscribed for type `7`
before its only peer could not be connected. -/
def failedPeerStateful : Impl :=
  (addConnection closedEnv
    (subscribe (Impl.init 99 "A") { addr := 100, typeIdentifier := 7 }).state
    "tcp://down:1" 0).state

/-- A discovery result with one instance that carries no session key, and whose
instance identifier converts to `99`. -/
def selfEnv : Env :=
  { openEnv with uint128 := fun _ => 99, browser := { records := [("host:1", [])] } }

/-- A subscriber with only the stateful object at address `100` subscribed for
type `7`. -/
def oneStateful : Impl :=
  (subscribe (Impl.init 99 "A") { addr := 100, typeIdentifier := 7 }).state

/-- The connected subscriber after `registerHandler( 1, 5 )`. -/
def connectedTypeOne : Impl := (registerHandler oneConnection 1 5).state

/-- A build for a host that is not little endian. -/
def bigEndianBuild : Build := { littleEndian := false, ndebug := true }

/-- A host on which port `4242` is in use. -/
def busyPorts : Ports :=
  { bound := [4242], ephemeral := 50000, ephemeralFree := by decide, zeroFree := by decide }

/-- A discovery result with a peer that cannot be connected, followed by an
instance whose port is not a number. -/
def malformedEnv : Env :=
  { closedEnv with browser := { records := [("down:1", []), ("host:abc", [])] } }

/-- The connected subscriber after a second `addConnection` for its endpoint
whose connect fails. -/
def refusedAfterConnect : Impl :=
  (addConnection closedEnv oneConnection "tcp://host:1" 0).state

/-! # Theorems -/

/-! ## Lemmas on `std::map` -/

namespace StdMap

variable {K V : Type} [DecidableEq K]

theorem find_set_self (less : K → K → Bool) (m : StdMap K V) (k : K) (v : V) :
    find (set less m k v) k = some v := by
  induction m with
  | nil => simp [set, find]
  | cons p r ih =>
    obtain ⟨k1, v1⟩ := p
    by_cases h1 : k = k1
    · simp [set, find, h1]
    · by_cases h2 : less k k1 = true
      · simp [set, find, h1, h2]
      · have h3 : ¬ k1 = k := fun e => h1 e.symm
        simp [set, find, h1, h2, h3, ih]

theorem find_set_other (less : K → K → Bool) (m : StdMap K V) (k k2 : K) (v : V)
    (h : k2 ≠ k) : find (set less m k v) k2 = find m k2 := by
  have hk : ¬ k = k2 := fun e => h e.symm
  induction m with
  | nil => simp [set, find, hk]
  | cons p r ih =>
    obtain ⟨k1, v1⟩ := p
    by_cases h1 : k = k1
    · subst h1
      simp [set, find, hk]
    · by_cases h2 : less k k1 = true
      · simp [set, find, h1, h2, hk]
      · by_cases h3 : k1 = k2
        · subst h3
          simp [set, find, h1, h2]
        · simp [set, find, h1, h2, h3, ih]

theorem find_erase_self (m : StdMap K V) (k : K) : find (erase m k) k = none := by
  induction m with
  | nil => simp [erase, find]
  | cons p r ih =>
    obtain ⟨k1, v1⟩ := p
    by_cases h1 : k1 = k
    · simpa [erase, List.filter, h1] using ih
    · simpa [erase, List.filter, h1, find] using ih

theorem find_erase_other (m : StdMap K V) (k k2 : K) (h : k2 ≠ k) :
    find (erase m k) k2 = find m k2 := by
  induction m with
  | nil => simp [erase, find]
  | cons p r ih =>
    obtain ⟨k1, v1⟩ := p
    by_cases h1 : k1 = k
    · subst h1
      have h3 : ¬ k1 = k2 := fun e => h e.symm
      simpa [erase, List.filter, find, h3] using ih
    · by_cases h3 : k1 = k2
      · subst h3
        simp [erase, List.filter, h1, find]
      · simpa [erase, List.filter, h1, find, h3] using ih

theorem set_set_self (less : K → K → Bool) (m : StdMap K V) (k : K) (v w : V) :
    set less (set less m k v) k w = set less m k w := by
  induction m with
  | nil => simp [set]
  | cons p r ih =>
    obtain ⟨k1, v1⟩ := p
    by_cases h1 : k = k1
    · simp [set, h1]
    · by_cases h2 : less k k1 = true
      · simp [set, h1, h2]
      · simp [set, h1, h2, ih]

theorem mem_set (less : K → K → Bool) (m : StdMap K V) (k : K) (v : V) (p : K × V)
    (h : p ∈ set less m k v) : p = (k, v) ∨ p ∈ m := by
  induction m with
  | nil => simpa [set] using h
  | cons q r ih =>
    obtain ⟨k1, v1⟩ := q
    by_cases h1 : k = k1
    · simp only [set, h1, if_true, List.mem_cons] at h
      rcases h with h3 | h3
      · exact Or.inl (h3.trans (by rw [h1]))
      · exact Or.inr (List.mem_cons_of_mem _ h3)
    · by_cases h2 : less k k1 = true
      · simp only [set, h1, h2, if_true, if_false, List.mem_cons] at h
        rcases h with h3 | h3 | h3
        · exact Or.inl h3
        · exact Or.inr (List.mem_cons.2 (Or.inl h3))
        · exact Or.inr (List.mem_cons_of_mem _ h3)
      · simp only [set, h1, h2, if_false, Bool.false_eq_true, List.mem_cons] at h
        rcases h with h3 | h3
        · exact Or.inr (List.mem_cons.2 (Or.inl h3))
        · rcases ih h3 with e | e
          · exact Or.inl e
          · exact Or.inr (List.mem_cons_of_mem _ e)

theorem count_eq_zero_iff (m : StdMap K V) (k : K) : count m k = 0 ↔ find m k = none := by
  unfold count
  cases find m k <;> simp

theorem count_ne_zero_iff (m : StdMap K V) (k : K) :
    count m k ≠ 0 ↔ ∃ v, find m k = some v := by
  unfold count
  cases find m k <;> simp

end StdMap

/-! ## Lemmas on the filter loops -/

theorem liveSockets_nil : liveSockets [] = [] := rfl

theorem liveSockets_cons_null (u : String) (r : StdMap String Nat) :
    liveSockets ((u, 0) :: r) = liveSockets r := by
  simp [liveSockets]

theorem liveSockets_cons_live (u : String) (sock : Nat) (r : StdMap String Nat)
    (h : sock ≠ 0) : liveSockets ((u, sock) :: r) = sock :: liveSockets r := by
  simp [liveSockets, h]

theorem setOnSockets_checked (opt : SockOpt) (event : Nat) (m : StdMap String Nat) (z : Zmq) :
    setOnSockets true opt event m z
      = Except.ok { z with calls := z.calls ++ checkedCalls opt event m } := by
  induction m generalizing z with
  | nil => simp [setOnSockets, checkedCalls, liveSockets_nil]
  | cons p r ih =>
    obtain ⟨u, sock⟩ := p
    by_cases h : sock = 0
    · subst h
      simp [setOnSockets, checkedCalls, liveSockets_cons_null, ih]
    · simp [setOnSockets, checkedCalls, liveSockets_cons_live, zmq_setsockopt, h, ih]

/-- A loop without the null check that ends normally has made the calls of the
checked loop. -/
theorem setOnSockets_unchecked (opt : SockOpt) (event : Nat) (m : StdMap String Nat)
    (z z1 : Zmq) (h : setOnSockets false opt event m z = Except.ok z1) :
    z1 = { z with calls := z.calls ++ checkedCalls opt event m } := by
  induction m generalizing z with
  | nil =>
    simp [setOnSockets] at h
    simp [checkedCalls, liveSockets_nil, ← h]
  | cons p r ih =>
    obtain ⟨u, sock⟩ := p
    by_cases h0 : sock = 0
    · subst h0
      simp [setOnSockets, zmq_setsockopt] at h
    · simp [setOnSockets, zmq_setsockopt, h0] at h
      have := ih _ h
      simp [this, checkedCalls, liveSockets_cons_live, h0]

/-- A loop without the null check raises as soon as the table holds a null
socket. -/
theorem setOnSockets_unchecked_null (opt : SockOpt) (event : Nat) (m : StdMap String Nat)
    (z : Zmq) (h : ∃ u, (u, 0) ∈ m) :
    ∃ z1, setOnSockets false opt event m z = Except.error z1 := by
  induction m generalizing z with
  | nil => simp at h
  | cons p r ih =>
    obtain ⟨u, sock⟩ := p
    by_cases h0 : sock = 0
    · subst h0
      exact ⟨z, by simp [setOnSockets, zmq_setsockopt]⟩
    · obtain ⟨u1, hu⟩ := h
      have hr : ∃ u, (u, 0) ∈ r := by
        rcases List.mem_cons.1 hu with e | e
        · exact absurd (congrArg Prod.snd e).symm h0
        · exact ⟨u1, e⟩
      obtain ⟨z1, hz⟩ :=
        ih { z with calls := z.calls ++ [ZmqCall.setsockopt sock opt event] } hr
      exact ⟨z1, by simpa [setOnSockets, zmq_setsockopt, h0] using hz⟩

theorem subscribeKeys_live (sock : Nat) (keys : List Nat) (z : Zmq) (h : sock ≠ 0) :
    subscribeKeys sock keys z = Except.ok { z with calls := z.calls ++ keyCalls sock keys } := by
  induction keys generalizing z with
  | nil => simp [subscribeKeys, keyCalls]
  | cons k r ih => simp [subscribeKeys, keyCalls, zmq_setsockopt, h, ih]

/-! ## The callback registry -/

theorem hasHandler_eq_false_iff (s : Impl) (T : Nat) :
    hasHandler s T = false ↔ StdMap.find s.eventFuncs T = none := by
  unfold hasHandler StdMap.count
  cases StdMap.find s.eventFuncs T <;> simp

theorem hasHandler_eq_true_iff (s : Impl) (T : Nat) :
    hasHandler s T = true ↔ ∃ g, StdMap.find s.eventFuncs T = some g := by
  unfold hasHandler StdMap.count
  cases StdMap.find s.eventFuncs T <;> simp

theorem registerHandler_fresh (s : Impl) (T : Nat) (f : EventFunc)
    (h : StdMap.find s.eventFuncs T = none) :
    registerHandler s T f = Result.ok true
      { s with eventFuncs := StdMap.set uint128Less s.eventFuncs T f,
               zmq := { s.zmq with calls := s.zmq.calls ++
                          checkedCalls SockOpt.ZMQ_SUBSCRIBE T s.subscribers } } := by
  have hc : StdMap.count s.eventFuncs T = 0 := (StdMap.count_eq_zero_iff _ _).2 h
  simp [registerHandler, hc, setOnSockets_checked]

theorem registerHandler_taken (s : Impl) (T : Nat) (f g : EventFunc)
    (h : StdMap.find s.eventFuncs T = some g) :
    registerHandler s T f = Result.ok false s := by
  have hc : StdMap.count s.eventFuncs T ≠ 0 := (StdMap.count_ne_zero_iff _ _).2 ⟨g, h⟩
  simp [registerHandler, hc]

/-- C1: `registerHandler( T, f )` returns true exactly when `T` has no callback
registered, and then `hasHandler( T )` holds with `f` stored for `T`; when a
callback `g` is registered for `T` it returns false and leaves the whole state
as it was: `g` stays the callback of `T`, and no call reaches the transport. -/
theorem registerHandler_contract (s : Impl) (T : Nat) (f : EventFunc) :
    ((∃ s1, registerHandler s T f = Result.ok true s1) ↔ hasHandler s T = false) ∧
    (∀ s1, registerHandler s T f = Result.ok true s1 →
      hasHandler s1 T = true ∧ StdMap.find s1.eventFuncs T = some f) ∧
    (∀ g, StdMap.find s.eventFuncs T = some g →
      registerHandler s T f = Result.ok false s ∧
      StdMap.find (registerHandler s T f).state.eventFuncs T = some g ∧
      (registerHandler s T f).state.zmq.calls = s.zmq.calls) := by
  cases hf : StdMap.find s.eventFuncs T with
  | none =>
    have hr := registerHandler_fresh s T f hf
    refine ⟨⟨fun _ => (hasHandler_eq_false_iff s T).2 hf, fun _ => ⟨_, hr⟩⟩, ?_, ?_⟩
    · intro s1 h1
      rw [hr] at h1
      injection h1 with _ h2
      subst h2
      refine ⟨(hasHandler_eq_true_iff _ T).2 ⟨f, ?_⟩, ?_⟩ <;>
        exact StdMap.find_set_self _ _ _ _
    · intro g hg
      cases hg
  | some g0 =>
    have hr := registerHandler_taken s T f g0 hf
    refine ⟨⟨?_, ?_⟩, ?_, ?_⟩
    · rintro ⟨s1, h1⟩
      rw [hr] at h1
      injection h1 with h2 _
      cases h2
    · intro h
      rw [(hasHandler_eq_false_iff s T).1 h] at hf
      cases hf
    · intro s1 h1
      rw [hr] at h1
      injection h1 with h2 _
      cases h2
    · intro g hg
      rw [hr]
      exact ⟨rfl, by simpa [Result.state, hf] using hg, rfl⟩

theorem registerHandler_contract_witness :
    registerHandler oneHandler 7 2 = Result.ok false oneHandler ∧
    StdMap.find (registerHandler oneHandler 7 2).state.eventFuncs 7 = some 1 ∧
    (registerHandler oneHandler 7 2).state.zmq.calls = oneHandler.zmq.calls :=
  (registerHandler_contract oneHandler 7 2).2.2 1 (by decide)

theorem deregisterHandler_absent (s : Impl) (T : Nat)
    (h : StdMap.find s.eventFuncs T = none) :
    deregisterHandler s T = Result.ok false s := by
  have hc : StdMap.count s.eventFuncs T = 0 := (StdMap.count_eq_zero_iff _ _).2 h
  simp [deregisterHandler, hc]

theorem deregisterHandler_present (s : Impl) (T : Nat) (g : EventFunc)
    (h : StdMap.find s.eventFuncs T = some g) :
    deregisterHandler s T = Result.ok true
      { s with eventFuncs := StdMap.erase s.eventFuncs T,
               zmq := { s.zmq with calls := s.zmq.calls ++
                          checkedCalls SockOpt.ZMQ_UNSUBSCRIBE T s.subscribers } } := by
  have hc : StdMap.count s.eventFuncs T ≠ 0 := (StdMap.count_ne_zero_iff _ _).2 ⟨g, h⟩
  simp [deregisterHandler, hc, setOnSockets_checked]

/-- Without a callback for the decoded type, `process` invokes no callback, and
nothing at all unless a stateful object is registered for the type. -/
theorem process_without_callback (b : Build) (s : Impl) (msg : Frame) (rest : List Frame)
    (h : StdMap.find s.eventFuncs (decodeType b msg.data) = none) :
    (∀ func event, Delivery.callback func event ∉ (process b s (msg :: rest)).invoked) ∧
    (StdMap.find s.serializables (decodeType b msg.data) = none →
      (process b s (msg :: rest)).invoked = []) := by
  unfold process
  by_cases hl : msg.data.length < 16
  · simp [hl, Processed.invoked]
  · simp only [hl, if_false]
    cases hs : StdMap.find s.serializables (decodeType b msg.data) with
    | none =>
      simp only [h]
      cases hm : msg.more <;> cases rest <;> cases hn : b.ndebug <;>
        simp [Processed.invoked]
    | some obj =>
      cases hm : msg.more <;> cases rest <;> simp [Processed.invoked]

/-- C2 (amended): `deregisterHandler( T )` returns false and changes nothing when
`T` has no callback; when `T` has one it returns true, `hasHandler( T )` becomes
false, and a message tagged `T` processed afterwards invokes no callback. It
invokes no handler at all when no stateful object was subscribed for `T`. -/
theorem deregisterHandler_contract (s : Impl) (T : Nat) :
    (hasHandler s T = false → deregisterHandler s T = Result.ok false s) ∧
    (hasHandler s T = true →
      ∃ s1, deregisterHandler s T = Result.ok true s1 ∧ hasHandler s1 T = false ∧
        s1.serializables = s.serializables ∧
        ∀ (b : Build) (msg : Frame) (rest : List Frame), decodeType b msg.data = T →
          (∀ func event,
            Delivery.callback func event ∉ (process b s1 (msg :: rest)).invoked) ∧
          (StdMap.find s.serializables T = none →
            (process b s1 (msg :: rest)).invoked = [])) := by
  constructor
  · intro h
    exact deregisterHandler_absent s T ((hasHandler_eq_false_iff s T).1 h)
  · intro h
    obtain ⟨g, hg⟩ := (hasHandler_eq_true_iff s T).1 h
    refine ⟨_, deregisterHandler_present s T g hg, ?_, rfl, ?_⟩
    · exact (hasHandler_eq_false_iff _ T).2 (StdMap.find_erase_self _ _)
    · intro b msg rest hT
      subst hT
      exact process_without_callback b _ msg rest (StdMap.find_erase_self _ _)

theorem deregisterHandler_contract_witness :
    ∃ s1, deregisterHandler oneHandler 7 = Result.ok true s1 ∧ hasHandler s1 7 = false ∧
      s1.serializables = oneHandler.serializables ∧
      ∀ (b : Build) (msg : Frame) (rest : List Frame), decodeType b msg.data = 7 →
        (∀ func event,
          Delivery.callback func event ∉ (process b s1 (msg :: rest)).invoked) ∧
        (StdMap.find oneHandler.serializables 7 = none →
          (process b s1 (msg :: rest)).invoked = []) :=
  (deregisterHandler_contract oneHandler 7).2 (by decide)

/-- C2 as stated fails: with a callback and a stateful object both registered
for type `7`, `deregisterHandler( 7 )` returns true, and the next message
tagged `7` is still delivered to the stateful object. -/
theorem deregisterHandler_still_delivers :
    hasHandler bothKinds 7 = true ∧
    (∃ s1, deregisterHandler bothKinds 7 = Result.ok true s1) ∧
    process { littleEndian := true, ndebug := true } (deregisterHandler bothKinds 7).state
        [{ data := toLE 16 7, more := false }]
      = Processed.done [Delivery.notifyUpdated 100] [] := by
  refine ⟨by decide, ⟨_, deregisterHandler_present bothKinds 7 1 (by decide)⟩, by decide⟩

/-! ## Frame 1 and dispatch -/

theorem toLE_length (n v : Nat) : (toLE n v).length = n := by
  induction n generalizing v with
  | zero => rfl
  | succ n ih => simp [toLE, ih]

theorem fromLE_toLE (n v : Nat) : fromLE (toLE n v) = v % 256 ^ n := by
  induction n generalizing v with
  | zero => simp [toLE, fromLE, Nat.mod_one]
  | succ n ih =>
    simp only [toLE, fromLE, ih, Nat.mod_mod]
    rw [pow_succ, Nat.mul_comm (256 ^ n) 256, Nat.mod_mul]

theorem fromLE_map_mod (l : List Nat) : fromLE (l.map (fun x => x % 256)) = fromLE l := by
  induction l with
  | nil => rfl
  | cons x r ih => simp [fromLE, ih]

theorem toLE_fromLE (l : List Nat) : toLE l.length (fromLE l) = l.map (fun x => x % 256) := by
  induction l with
  | nil => rfl
  | cons x r ih =>
    have h1 : (x % 256 + 256 * fromLE r) % 256 = x % 256 := by omega
    have h2 : (x % 256 + 256 * fromLE r) / 256 = fromLE r := by omega
    simp [toLE, fromLE, h1, h2, ih]

/-- On either kind of host, `process` reads a 16-byte frame as its little endian
value. -/
theorem decodeType_eq_fromLE (b : Build) (data : List Nat) (h : data.length = 16) :
    decodeType b data = fromLE data := by
  have ht : data.take 16 = data := by
    rw [← h]
    exact List.take_length data
  unfold decodeType loadHost byteswap
  rw [ht]
  cases b.littleEndian with
  | true => simp
  | false =>
    have hr : data.reverse.length = 16 := by simpa using h
    have := toLE_fromLE data.reverse
    rw [hr] at this
    simp only [Bool.false_eq_true, if_false]
    rw [this, ← List.map_reverse, List.reverse_reverse, fromLE_map_mod]

theorem decodeType_wireBytes (b : Build) (T : Nat) (hT : T < 2 ^ 128) :
    decodeType b (wireBytes T) = T := by
  unfold wireBytes
  rw [decodeType_eq_fromLE b _ (toLE_length 16 T), fromLE_toLE]
  have : (256 : Nat) ^ 16 = 2 ^ 128 := by norm_num
  rw [this]
  exact Nat.mod_eq_of_lt hT

/-- C3: for a type `T` with a callback `f` and no stateful object, `process` on a
message whose frame 1 carries `T` with the more flag and whose frame 2 is `B`
invokes exactly one handler, the callback `f`, with an event of type `T` whose
data is `B` and whose size is the length of `B`. -/
theorem process_delivers_to_callback (b : Build) (s : Impl) (T : Nat) (f : EventFunc)
    (B : List Nat) (more2 : Bool) (rest : List Frame) (hT : T < 2 ^ 128)
    (hf : StdMap.find s.eventFuncs T = some f)
    (hs : StdMap.find s.serializables T = none) :
    process b s ({ data := wireBytes T, more := true } :: { data := B, more := more2 } :: rest)
      = Processed.done
          [Delivery.callback f { type := T, data := some B, size := B.length }] rest := by
  have hl : ¬ (wireBytes T).length < 16 := by simp [wireBytes, toLE_length]
  simp [process, hl, decodeType_wireBytes b T hT, hf, hs, Event.new, Event.setData]

theorem process_delivers_to_callback_witness :
    process { littleEndian := false, ndebug := false } oneHandler
        [{ data := wireBytes 7, more := true }, { data := [1, 2, 3], more := false }]
      = Processed.done
          [Delivery.callback 1 { type := 7, data := some [1, 2, 3], size := [1, 2, 3].length }]
          [] :=
  process_delivers_to_callback { littleEndian := false, ndebug := false } oneHandler 7 1
    [1, 2, 3] false [] (by norm_num) (by decide) (by decide)

/-! ## What each member function returns -/

theorem subscribe_taken (s : Impl) (o : Serializable) (a : Nat)
    (h : StdMap.find s.serializables o.typeIdentifier = some a) :
    subscribe s o = Result.ok false s := by
  have hc : StdMap.count s.serializables o.typeIdentifier ≠ 0 :=
    (StdMap.count_ne_zero_iff _ _).2 ⟨a, h⟩
  simp [subscribe, Serializable.getTypeIdentifier, hc]

theorem subscribe_returns (s : Impl) (o : Serializable) (r : Bool) (s1 : Impl)
    (h : subscribe s o = Result.ok r s1) :
    (r = false ∧ s1 = s ∧ StdMap.find s.serializables o.typeIdentifier ≠ none) ∨
    (r = true ∧ s1 = subscribed s o ∧ StdMap.find s.serializables o.typeIdentifier = none) := by
  cases hf : StdMap.find s.serializables o.typeIdentifier with
  | some a =>
    rw [subscribe_taken s o a hf] at h
    injection h with h1 h2
    exact Or.inl ⟨h1.symm, h2.symm, by simp⟩
  | none =>
    have hc : StdMap.count s.serializables o.typeIdentifier = 0 :=
      (StdMap.count_eq_zero_iff _ _).2 hf
    simp only [subscribe, Serializable.getTypeIdentifier, hc, ne_eq, not_true_eq_false,
      if_false, _subscribe] at h
    cases hl : setOnSockets false SockOpt.ZMQ_SUBSCRIBE o.typeIdentifier s.subscribers s.zmq with
    | error z => simp [hl] at h
    | ok z =>
      simp only [hl] at h
      injection h with h1 h2
      have hz := setOnSockets_unchecked _ _ _ _ _ hl
      subst hz
      exact Or.inr ⟨h1.symm, h2.symm, rfl⟩

theorem unsubscribe_absent (s : Impl) (o : Serializable)
    (h : StdMap.find s.serializables o.typeIdentifier = none) :
    unsubscribe s o = Result.ok false s := by
  have hc : StdMap.count s.serializables o.typeIdentifier = 0 :=
    (StdMap.count_eq_zero_iff _ _).2 h
  simp [unsubscribe, Serializable.getTypeIdentifier, hc]

theorem unsubscribe_returns (s : Impl) (o : Serializable) (r : Bool) (s1 : Impl)
    (h : unsubscribe s o = Result.ok r s1) :
    (r = false ∧ s1 = s ∧ StdMap.find s.serializables o.typeIdentifier = none) ∨
    (r = true ∧ s1 = unsubscribed s o ∧
      StdMap.find s.serializables o.typeIdentifier ≠ none) := by
  cases hf : StdMap.find s.serializables o.typeIdentifier with
  | none =>
    rw [unsubscribe_absent s o hf] at h
    injection h with h1 h2
    exact Or.inl ⟨h1.symm, h2.symm, rfl⟩
  | some a =>
    have hc : StdMap.count s.serializables o.typeIdentifier ≠ 0 :=
      (StdMap.count_ne_zero_iff _ _).2 ⟨a, hf⟩
    simp only [unsubscribe, Serializable.getTypeIdentifier, hc, if_false, _unsubscribe] at h
    cases hl : setOnSockets false SockOpt.ZMQ_UNSUBSCRIBE o.typeIdentifier s.subscribers
        s.zmq with
    | error z => simp [hl] at h
    | ok z =>
      simp only [hl] at h
      injection h with h1 h2
      have hz := setOnSockets_unchecked _ _ _ _ _ hl
      subst hz
      exact Or.inr ⟨h1.symm, h2.symm, by simp⟩

theorem addConnection_self (env : Env) (s : Impl) (zmqURI : String) :
    addConnection env s zmqURI s.selfInstance = Result.ok true s := by
  simp [addConnection]

theorem addConnection_refused (env : Env) (s : Impl) (zmqURI : String) (identifier : Nat)
    (hi : identifier ≠ s.selfInstance) (hc : env.connects zmqURI = false) :
    addConnection env s zmqURI identifier = Result.ok false (refused s zmqURI) := by
  simp [addConnection, hi, zmq_socket, zmq_connect, zmq_close, hc, StdMap.get,
    StdMap.find_set_self, StdMap.set_set_self, refused]

theorem addConnection_connected (env : Env) (s : Impl) (zmqURI : String) (identifier : Nat)
    (hi : identifier ≠ s.selfInstance) (hc : env.connects zmqURI = true) :
    addConnection env s zmqURI identifier = Result.ok true (connected s zmqURI) := by
  simp [addConnection, hi, zmq_socket, zmq_connect, hc, StdMap.get,
    StdMap.find_set_self, subscribeKeys_live, connected]

/-- The three ways `addConnection` ends; it never raises. -/
theorem addConnection_returns (env : Env) (s : Impl) (zmqURI : String) (identifier : Nat) :
    (identifier = s.selfInstance ∧ addConnection env s zmqURI identifier = Result.ok true s) ∨
    (identifier ≠ s.selfInstance ∧ env.connects zmqURI = false ∧
      addConnection env s zmqURI identifier = Result.ok false (refused s zmqURI)) ∨
    (identifier ≠ s.selfInstance ∧ env.connects zmqURI = true ∧
      addConnection env s zmqURI identifier = Result.ok true (connected s zmqURI)) := by
  by_cases hi : identifier = s.selfInstance
  · subst hi
    exact Or.inl ⟨rfl, addConnection_self env s zmqURI⟩
  · cases hc : env.connects zmqURI with
    | false => exact Or.inr (Or.inl ⟨hi, rfl, addConnection_refused env s zmqURI identifier hi hc⟩)
    | true => exact Or.inr (Or.inr ⟨hi, rfl, addConnection_connected env s zmqURI identifier hi hc⟩)

/-! ## Key order and the socket table -/

theorem StdMap.keys_set_subset {V : Type} (less : Nat → Nat → Bool) (m : StdMap Nat V)
    (k : Nat) (v : V) (x : Nat) (h : x ∈ StdMap.keys (StdMap.set less m k v)) :
    x = k ∨ x ∈ StdMap.keys m := by
  simp only [StdMap.keys, List.mem_map] at h ⊢
  obtain ⟨p, hp, hx⟩ := h
  rcases StdMap.mem_set less m k v p hp with e | e
  · left
    rw [← hx, e]
  · right
    exact ⟨p, e, hx⟩

/-- An assignment keeps a registry in strictly increasing key order. -/
theorem StdMap.keys_set_sorted {V : Type} (m : StdMap Nat V) (k : Nat) (v : V)
    (h : (StdMap.keys m).Pairwise (fun a b => a < b)) :
    (StdMap.keys (StdMap.set uint128Less m k v)).Pairwise (fun a b => a < b) := by
  induction m with
  | nil => simp [StdMap.set, StdMap.keys]
  | cons p r ih =>
    obtain ⟨k1, v1⟩ := p
    have h0 : (∀ x ∈ StdMap.keys r, k1 < x) ∧ (StdMap.keys r).Pairwise (fun a b => a < b) := by
      simpa [StdMap.keys] using h
    by_cases h1 : k = k1
    · subst h1
      simpa [StdMap.set, StdMap.keys] using h
    · by_cases h2 : k < k1
      · have hall : ∀ x ∈ StdMap.keys r, k < x := fun x hx => lt_trans h2 (h0.1 x hx)
        have : (StdMap.keys ((k, v) :: (k1, v1) :: r)).Pairwise (fun a b => a < b) := by
          simp only [StdMap.keys, List.map_cons, List.pairwise_cons, List.mem_cons]
          refine ⟨?_, ?_, ?_⟩
          · rintro x (hx | hx)
            · rw [hx]
              exact h2
            · exact hall x hx
          · exact h0.1
          · exact h0.2
        simpa [StdMap.set, h1, uint128Less, h2] using this
      · have h3 : k1 < k := by omega
        have : (StdMap.keys ((k1, v1) :: StdMap.set uint128Less r k v)).Pairwise
            (fun a b => a < b) := by
          simp only [StdMap.keys, List.map_cons, List.pairwise_cons]
          refine ⟨?_, ih h0.2⟩
          intro x hx
          rcases StdMap.keys_set_subset uint128Less r k v x hx with e | e
          · rw [e]
            exact h3
          · exact h0.1 x e
        simpa [StdMap.set, h1, uint128Less, h2] using this

theorem StdMap.keys_erase_sorted {V : Type} (m : StdMap Nat V) (k : Nat)
    (h : (StdMap.keys m).Pairwise (fun a b => a < b)) :
    (StdMap.keys (StdMap.erase m k)).Pairwise (fun a b => a < b) := by
  have hs : List.Sublist (StdMap.keys (StdMap.erase m k)) (StdMap.keys m) :=
    List.Sublist.map _ (List.filter_sublist _)
  exact List.Pairwise.sublist hs h

theorem StdMap.keys_nodup_of_sorted {V : Type} (m : StdMap Nat V)
    (h : (StdMap.keys m).Pairwise (fun a b => a < b)) : (StdMap.keys m).Nodup :=
  List.Pairwise.imp (fun hab => Nat.ne_of_lt hab) h

theorem StdMap.mem_keys_iff {V : Type} (m : StdMap Nat V) (k : Nat) :
    k ∈ StdMap.keys m ↔ StdMap.count m k = 1 := by
  induction m with
  | nil => simp [StdMap.keys, StdMap.count, StdMap.find]
  | cons p r ih =>
    obtain ⟨k1, v1⟩ := p
    by_cases h1 : k1 = k
    · simp [StdMap.keys, StdMap.count, StdMap.find, h1]
    · have h2 : ¬ k = k1 := fun e => h1 e.symm
      simpa [StdMap.keys, StdMap.count, StdMap.find, h1, h2] using ih

theorem StdMap.count_le_one {V : Type} (m : StdMap Nat V) (k : Nat) :
    StdMap.count m k = 0 ∨ StdMap.count m k = 1 := by
  unfold StdMap.count
  cases StdMap.find m k <;> simp

theorem mem_liveSockets (m : StdMap String Nat) (x : Nat) :
    x ∈ liveSockets m ↔ x ≠ 0 ∧ ∃ u, (u, x) ∈ m := by
  simp [liveSockets]
  tauto

theorem mem_liveSockets_set (m : StdMap String Nat) (k : String) (v x : Nat)
    (h : x ∈ liveSockets (StdMap.set stringLess m k v)) : x = v ∨ x ∈ liveSockets m := by
  rw [mem_liveSockets] at h
  obtain ⟨h0, u, hu⟩ := h
  rcases StdMap.mem_set stringLess m k v (u, x) hu with e | e
  · left
    exact (Prod.mk.inj e).2
  · right
    exact (mem_liveSockets m x).2 ⟨h0, u, e⟩

theorem mem_liveSockets_of_find (m : StdMap String Nat) (u : String) (x : Nat)
    (h : StdMap.find m u = some x) (h0 : x ≠ 0) : x ∈ liveSockets m := by
  rw [mem_liveSockets]
  refine ⟨h0, u, ?_⟩
  induction m with
  | nil => simp [StdMap.find] at h
  | cons p r ih =>
    obtain ⟨k1, v1⟩ := p
    by_cases h1 : k1 = u
    · simp [StdMap.find, h1] at h
      simp [h1, h]
    · simp [StdMap.find, h1] at h
      exact List.mem_cons_of_mem _ (ih h)

/-- Storing a socket that is null or not yet in the table keeps the live sockets
of the table distinct. -/
theorem nodup_liveSockets_set (m : StdMap String Nat) (k : String) (v : Nat)
    (hn : (liveSockets m).Nodup) (hv : v = 0 ∨ v ∉ liveSockets m) :
    (liveSockets (StdMap.set stringLess m k v)).Nodup := by
  have hhead : ∀ (u : String) (r : StdMap String Nat), (liveSockets r).Nodup →
      v ∉ liveSockets r ∨ v = 0 → (liveSockets ((u, v) :: r)).Nodup := by
    intro u r hr hvr
    by_cases h0 : v = 0
    · subst h0
      rw [liveSockets_cons_null]
      exact hr
    · rw [liveSockets_cons_live u v r h0]
      rcases hvr with e | e
      · exact List.nodup_cons.2 ⟨e, hr⟩
      · exact absurd e h0
  induction m with
  | nil => simpa [StdMap.set] using hhead k [] (by simp [liveSockets]) (Or.inl (by simp [liveSockets]))
  | cons p r ih =>
    obtain ⟨k1, v1⟩ := p
    have hsub : ∀ x, x ∈ liveSockets r → x ∈ liveSockets ((k1, v1) :: r) := by
      intro x hx
      rw [mem_liveSockets] at hx ⊢
      exact ⟨hx.1, hx.2.imp fun u hu => List.mem_cons_of_mem _ hu⟩
    have hr : (liveSockets r).Nodup := by
      by_cases h0 : v1 = 0
      · subst h0
        rwa [liveSockets_cons_null] at hn
      · rw [liveSockets_cons_live k1 v1 r h0] at hn
        exact (List.nodup_cons.1 hn).2
    have hvr : v = 0 ∨ v ∉ liveSockets r := hv.imp id (fun h hx => h (hsub v hx))
    by_cases h1 : k = k1
    · have := hhead k r hr (hvr.symm)
      simpa [StdMap.set, h1] using this
    · by_cases h2 : stringLess k k1 = true
      · have := hhead k ((k1, v1) :: r) hn hv.symm
        simpa [StdMap.set, h1, h2] using this
      · have hrec := ih hr hvr
        have : (liveSockets ((k1, v1) :: StdMap.set stringLess r k v)).Nodup := by
          by_cases h0 : v1 = 0
          · subst h0
            rw [liveSockets_cons_null]
            exact hrec
          · rw [liveSockets_cons_live k1 v1 _ h0]
            refine List.nodup_cons.2 ⟨?_, hrec⟩
            intro hmem
            rcases mem_liveSockets_set r k v v1 hmem with e | e
            · rcases hv with hv0 | hv1
              · exact h0 (e.trans hv0)
              · apply hv1
                rw [← e, liveSockets_cons_live k1 v1 r h0]
                exact List.mem_cons_self _ _
            · rw [liveSockets_cons_live k1 v1 r h0] at hn
              exact (List.nodup_cons.1 hn).1 e
        simpa [StdMap.set, h1, h2] using this

/-! ## Filters as a function of the transport calls -/

theorem replay_unrelated {σ : Type} (step : σ → SockOpt → σ) (sock topic : Nat) (a : σ)
    (cs : List ZmqCall)
    (h : ∀ h1 opt t, ZmqCall.setsockopt h1 opt t ∈ cs → ¬ (h1 = sock ∧ t = topic)) :
    cs.foldl (filterCall step sock topic) a = a := by
  induction cs generalizing a with
  | nil => rfl
  | cons c r ih =>
    have hr : ∀ h1 opt t, ZmqCall.setsockopt h1 opt t ∈ r → ¬ (h1 = sock ∧ t = topic) :=
      fun h1 opt t hm => h h1 opt t (List.mem_cons_of_mem _ hm)
    cases c with
    | setsockopt h1 opt t =>
      have := h h1 opt t (List.mem_cons_self _ _)
      simp [filterCall, this, ih _ hr]
    | socket h1 => simp [filterCall, ih _ hr]
    | connect h1 e => simp [filterCall, ih _ hr]
    | close h1 => simp [filterCall, ih _ hr]

/-- One call per socket of a duplicate-free list changes the filter `topic` of
`sock` once if it is the topic set and `sock` is in the list, and not at all
otherwise. -/
theorem replay_sockets {σ : Type} (step : σ → SockOpt → σ) (sock topic : Nat) (opt : SockOpt)
    (T : Nat) (l : List Nat) (hl : l.Nodup) (a : σ) :
    (l.map (fun h => ZmqCall.setsockopt h opt T)).foldl (filterCall step sock topic) a
      = if topic = T ∧ sock ∈ l then step a opt else a := by
  induction l generalizing a with
  | nil => simp
  | cons h r ih =>
    obtain ⟨hnot, hr⟩ := List.nodup_cons.1 hl
    simp only [List.map_cons, List.foldl_cons, filterCall]
    by_cases hm : h = sock ∧ T = topic
    · obtain ⟨h1, h2⟩ := hm
      subst h1
      subst h2
      simp [ih hr, hnot]
    · rw [if_neg hm, ih hr]
      by_cases ht : topic = T
      · subst ht
        have hne : ¬ h = sock := fun e => hm ⟨e, rfl⟩
        have hne2 : ¬ sock = h := fun e => hne e.symm
        simp [hne2]
      · simp [ht]

/-- Subscribing one socket to a duplicate-free list of keys changes the filter
`topic` of `sock` once if it is that socket and `topic` is a key. -/
theorem replay_keys {σ : Type} (step : σ → SockOpt → σ) (sock topic h : Nat)
    (keys : List Nat) (hk : keys.Nodup) (a : σ) :
    (keyCalls h keys).foldl (filterCall step sock topic) a
      = if sock = h ∧ topic ∈ keys then step a SockOpt.ZMQ_SUBSCRIBE else a := by
  unfold keyCalls
  induction keys generalizing a with
  | nil => simp
  | cons k r ih =>
    obtain ⟨hnot, hr⟩ := List.nodup_cons.1 hk
    simp only [List.map_cons, List.foldl_cons, filterCall]
    by_cases hm : h = sock ∧ k = topic
    · obtain ⟨h1, h2⟩ := hm
      subst h1
      subst h2
      simp [ih hr, hnot]
    · rw [if_neg hm, ih hr]
      by_cases hs : sock = h
      · subst hs
        have hne : ¬ k = topic := fun e => hm ⟨rfl, e⟩
        have hne2 : ¬ topic = k := fun e => hne e.symm
        simp [hne2]
      · simp [hs]

theorem filterCount_append (sock topic : Nat) (cs ds : List ZmqCall) :
    filterCount sock topic (cs ++ ds)
      = ds.foldl (filterCall countStep sock topic) (filterCount sock topic cs) := by
  simp [filterCount, List.foldl_append]

theorem filterInSet_append (sock topic : Nat) (cs ds : List ZmqCall) :
    filterInSet sock topic (cs ++ ds)
      = ds.foldl (filterCall setStep sock topic) (filterInSet sock topic cs) := by
  simp [filterInSet, List.foldl_append]

theorem mem_checkedCalls (opt : SockOpt) (T : Nat) (m : StdMap String Nat) (h : Nat)
    (o : SockOpt) (t : Nat) (hm : ZmqCall.setsockopt h o t ∈ checkedCalls opt T m) :
    h ∈ liveSockets m := by
  simp only [checkedCalls, List.mem_map] at hm
  obtain ⟨x, hx, he⟩ := hm
  injection he with e1 _ _
  rw [← e1]
  exact hx

theorem mem_keyCalls (sock : Nat) (keys : List Nat) (h : Nat) (o : SockOpt) (t : Nat)
    (hm : ZmqCall.setsockopt h o t ∈ keyCalls sock keys) : h = sock := by
  simp only [keyCalls, List.mem_map] at hm
  obtain ⟨x, _, he⟩ := hm
  injection he with e1 _ _
  exact e1.symm

/-! ## Every reachable state is consistent -/

theorem consistent_init (selfInstance : Nat) (session : String) :
    Consistent (Impl.init selfInstance session) := by
  constructor <;> simp [Impl.init, StdMap.keys, liveSockets]

/-- A change of one registration for `T`, together with the matching filter call
on every live socket, keeps the state consistent. -/
theorem consistent_refilter (s s1 : Impl) (opt : SockOpt) (T : Nat) (hc : Consistent s)
    (hsub : s1.subscribers = s.subscribers) (halloc : s1.zmq.allocated = s.zmq.allocated)
    (hcalls : s1.zmq.calls = s.zmq.calls ++ checkedCalls opt T s.subscribers)
    (hef : (StdMap.keys s1.eventFuncs).Pairwise (fun a b => a < b))
    (hser : (StdMap.keys s1.serializables).Pairwise (fun a b => a < b))
    (hother : ∀ T1, T1 ≠ T →
      StdMap.count s1.eventFuncs T1 = StdMap.count s.eventFuncs T1 ∧
      StdMap.count s1.serializables T1 = StdMap.count s.serializables T1)
    (hsum : StdMap.count s1.eventFuncs T + StdMap.count s1.serializables T
      = countStep (StdMap.count s.eventFuncs T + StdMap.count s.serializables T) opt)
    (hset : opt = SockOpt.ZMQ_SUBSCRIBE →
      StdMap.count s1.eventFuncs T = 1 ∨ StdMap.count s1.serializables T = 1) :
    Consistent s1 := by
  refine ⟨hef, hser, ?_, ?_, ?_, ?_, ?_⟩
  · rw [hsub]
    exact hc.socketsDistinct
  · rw [hsub, halloc]
    exact hc.socketsCreated
  · intro sock o t hm
    rw [hcalls, List.mem_append] at hm
    rw [halloc]
    rcases hm with hm | hm
    · exact hc.callsCreated sock o t hm
    · exact hc.socketsCreated sock (mem_checkedCalls _ _ _ _ _ _ hm)
  · intro sock hs T1
    rw [hsub] at hs
    rw [hcalls, filterCount_append]
    unfold checkedCalls
    rw [replay_sockets countStep sock T1 opt T _ hc.socketsDistinct, hc.counted sock hs T1]
    by_cases ht : T1 = T
    · subst ht
      simp [hs, hsum]
    · simp [ht, hother T1 ht]
  · intro sock hs T1
    rw [hsub] at hs
    rw [hcalls, filterInSet_append]
    unfold checkedCalls
    rw [replay_sockets setStep sock T1 opt T _ hc.socketsDistinct]
    by_cases ht : T1 = T
    · subst ht
      cases opt with
      | ZMQ_SUBSCRIBE =>
        intro _
        exact hset rfl
      | ZMQ_UNSUBSCRIBE => simp [hs, setStep]
    · simp only [ht, false_and, if_false]
      rw [(hother T1 ht).1, (hother T1 ht).2]
      exact hc.inSet sock hs T1

theorem StdMap.count_set_self {V : Type} (less : Nat → Nat → Bool) (m : StdMap Nat V)
    (k : Nat) (v : V) : StdMap.count (StdMap.set less m k v) k = 1 := by
  simp [StdMap.count, StdMap.find_set_self]

theorem StdMap.count_set_other {V : Type} (less : Nat → Nat → Bool) (m : StdMap Nat V)
    (k k2 : Nat) (v : V) (h : k2 ≠ k) :
    StdMap.count (StdMap.set less m k v) k2 = StdMap.count m k2 := by
  simp [StdMap.count, StdMap.find_set_other less m k k2 v h]

theorem StdMap.count_erase_self {V : Type} (m : StdMap Nat V) (k : Nat) :
    StdMap.count (StdMap.erase m k) k = 0 := by
  simp [StdMap.count, StdMap.find_erase_self]

theorem StdMap.count_erase_other {V : Type} (m : StdMap Nat V) (k k2 : Nat) (h : k2 ≠ k) :
    StdMap.count (StdMap.erase m k) k2 = StdMap.count m k2 := by
  simp [StdMap.count, StdMap.find_erase_other m k k2 h]

theorem StdMap.count_of_find_none {V : Type} (m : StdMap Nat V) (k : Nat)
    (h : StdMap.find m k = none) : StdMap.count m k = 0 := by
  simp [StdMap.count, h]

theorem StdMap.count_of_find_ne_none {V : Type} (m : StdMap Nat V) (k : Nat)
    (h : StdMap.find m k ≠ none) : StdMap.count m k = 1 := by
  unfold StdMap.count
  cases hf : StdMap.find m k with
  | none => exact absurd hf h
  | some v => rfl

theorem consistent_registerHandler (s : Impl) (T : Nat) (f : EventFunc) (r : Bool) (s1 : Impl)
    (hc : Consistent s) (h : registerHandler s T f = Result.ok r s1) : Consistent s1 := by
  cases hf : StdMap.find s.eventFuncs T with
  | some g =>
    rw [registerHandler_taken s T f g hf] at h
    injection h with _ h2
    rw [← h2]
    exact hc
  | none =>
    rw [registerHandler_fresh s T f hf] at h
    injection h with _ h2
    subst h2
    have h0 := StdMap.count_of_find_none _ _ hf
    refine consistent_refilter s _ SockOpt.ZMQ_SUBSCRIBE T hc rfl rfl rfl
      (StdMap.keys_set_sorted _ _ _ hc.eventFuncsSorted) hc.serializablesSorted ?_ ?_ ?_
    · intro T1 h1
      exact ⟨StdMap.count_set_other _ _ _ _ _ h1, rfl⟩
    · simp [StdMap.count_set_self, h0, countStep, Nat.add_comm]
    · intro _
      exact Or.inl (StdMap.count_set_self _ _ _ _)

theorem consistent_deregisterHandler (s : Impl) (T : Nat) (r : Bool) (s1 : Impl)
    (hc : Consistent s) (h : deregisterHandler s T = Result.ok r s1) : Consistent s1 := by
  cases hf : StdMap.find s.eventFuncs T with
  | none =>
    rw [deregisterHandler_absent s T hf] at h
    injection h with _ h2
    rw [← h2]
    exact hc
  | some g =>
    rw [deregisterHandler_present s T g hf] at h
    injection h with _ h2
    subst h2
    have h1 := StdMap.count_of_find_ne_none s.eventFuncs T (by simp [hf])
    refine consistent_refilter s _ SockOpt.ZMQ_UNSUBSCRIBE T hc rfl rfl rfl
      (StdMap.keys_erase_sorted _ _ hc.eventFuncsSorted) hc.serializablesSorted ?_ ?_ ?_
    · intro T1 h1
      exact ⟨StdMap.count_erase_other _ _ _ h1, rfl⟩
    · simp only [StdMap.count_erase_self, h1, countStep]
      omega
    · intro h3
      cases h3

theorem consistent_subscribe (s : Impl) (o : Serializable) (r : Bool) (s1 : Impl)
    (hc : Consistent s) (h : subscribe s o = Result.ok r s1) : Consistent s1 := by
  rcases subscribe_returns s o r s1 h with ⟨_, h2, _⟩ | ⟨_, h2, hf⟩
  · rw [h2]
    exact hc
  · subst h2
    have h0 := StdMap.count_of_find_none _ _ hf
    refine consistent_refilter s _ SockOpt.ZMQ_SUBSCRIBE o.typeIdentifier hc rfl rfl rfl
      hc.eventFuncsSorted (StdMap.keys_set_sorted _ _ _ hc.serializablesSorted) ?_ ?_ ?_
    · intro T1 h1
      exact ⟨rfl, StdMap.count_set_other _ _ _ _ _ h1⟩
    · simp [subscribed, StdMap.count_set_self, h0, countStep]
    · intro _
      exact Or.inr (StdMap.count_set_self _ _ _ _)

theorem consistent_unsubscribe (s : Impl) (o : Serializable) (r : Bool) (s1 : Impl)
    (hc : Consistent s) (h : unsubscribe s o = Result.ok r s1) : Consistent s1 := by
  rcases unsubscribe_returns s o r s1 h with ⟨_, h2, _⟩ | ⟨_, h2, hf⟩
  · rw [h2]
    exact hc
  · subst h2
    have h1 := StdMap.count_of_find_ne_none _ _ hf
    refine consistent_refilter s _ SockOpt.ZMQ_UNSUBSCRIBE o.typeIdentifier hc rfl rfl rfl
      hc.eventFuncsSorted (StdMap.keys_erase_sorted _ _ hc.serializablesSorted) ?_ ?_ ?_
    · intro T1 h1
      exact ⟨rfl, StdMap.count_erase_other _ _ _ h1⟩
    · simp only [unsubscribed, StdMap.count_erase_self, h1, countStep]
      omega
    · intro h3
      cases h3

theorem consistent_refused (s : Impl) (zmqURI : String) (hc : Consistent s) :
    Consistent (refused s zmqURI) := by
  have hlive : ∀ sock, sock ∈ liveSockets (refused s zmqURI).subscribers →
      sock ∈ liveSockets s.subscribers := by
    intro sock hs
    rcases mem_liveSockets_set s.subscribers zmqURI 0 sock hs with e | e
    · exact absurd e ((mem_liveSockets _ _).1 hs).1
    · exact e
  have hquiet : ∀ {σ : Type} (step : σ → SockOpt → σ) (sock T : Nat) (a : σ),
      List.foldl (filterCall step sock T) a
        [ZmqCall.socket (s.zmq.allocated + 1), ZmqCall.connect (s.zmq.allocated + 1) zmqURI,
          ZmqCall.close (s.zmq.allocated + 1)] = a := by
    intro σ step sock T a
    simp [filterCall]
  refine ⟨hc.eventFuncsSorted, hc.serializablesSorted, ?_, ?_, ?_, ?_, ?_⟩
  · exact nodup_liveSockets_set _ _ 0 hc.socketsDistinct (Or.inl rfl)
  · intro sock hs
    exact Nat.le_succ_of_le (hc.socketsCreated sock (hlive sock hs))
  · intro sock o t hm
    have : ZmqCall.setsockopt sock o t ∈ s.zmq.calls := by
      simpa [refused] using hm
    exact Nat.le_succ_of_le (hc.callsCreated sock o t this)
  · intro sock hs T
    have := hc.counted sock (hlive sock hs) T
    simpa [refused, filterCount_append, hquiet] using this
  · intro sock hs T
    have := hc.inSet sock (hlive sock hs) T
    simpa [refused, filterInSet_append, hquiet] using this

theorem consistent_connected (s : Impl) (zmqURI : String) (hc : Consistent s) :
    Consistent (connected s zmqURI) := by
  have hfresh : s.zmq.allocated + 1 ∉ liveSockets s.subscribers := by
    intro hm
    have := hc.socketsCreated _ hm
    omega
  have hlive : ∀ sock, sock ∈ liveSockets (connected s zmqURI).subscribers →
      sock = s.zmq.allocated + 1 ∨ sock ∈ liveSockets s.subscribers :=
    fun sock hs => mem_liveSockets_set s.subscribers zmqURI _ sock hs
  have hcalls : (connected s zmqURI).zmq.calls
      = s.zmq.calls ++ ([ZmqCall.socket (s.zmq.allocated + 1),
                         ZmqCall.connect (s.zmq.allocated + 1) zmqURI] ++
          (keyCalls (s.zmq.allocated + 1) (StdMap.keys s.eventFuncs) ++
           keyCalls (s.zmq.allocated + 1) (StdMap.keys s.serializables))) := by
    simp [connected]
  have hnew : ∀ sock o t, ZmqCall.setsockopt sock o t ∈
      ([ZmqCall.socket (s.zmq.allocated + 1), ZmqCall.connect (s.zmq.allocated + 1) zmqURI] ++
        (keyCalls (s.zmq.allocated + 1) (StdMap.keys s.eventFuncs) ++
         keyCalls (s.zmq.allocated + 1) (StdMap.keys s.serializables))) →
      sock = s.zmq.allocated + 1 := by
    intro sock o t hm
    simp only [List.mem_append, List.mem_cons, List.mem_singleton, List.not_mem_nil,
      or_false] at hm
    rcases hm with (hm | hm) | hm | hm
    · cases hm
    · cases hm
    · exact mem_keyCalls _ _ _ _ _ hm
    · exact mem_keyCalls _ _ _ _ _ hm
  have hold : ∀ {σ : Type} (step : σ → SockOpt → σ) (sock T : Nat) (a : σ),
      sock ∈ liveSockets s.subscribers →
      List.foldl (filterCall step sock T) a
        ([ZmqCall.socket (s.zmq.allocated + 1), ZmqCall.connect (s.zmq.allocated + 1) zmqURI] ++
          (keyCalls (s.zmq.allocated + 1) (StdMap.keys s.eventFuncs) ++
           keyCalls (s.zmq.allocated + 1) (StdMap.keys s.serializables))) = a := by
    intro σ step sock T a hs
    apply replay_unrelated
    intro h1 o t hm hx
    have h2 := hnew h1 o t hm
    have h3 := hc.socketsCreated sock hs
    omega
  have hstart : ∀ {σ : Type} (step : σ → SockOpt → σ) (T : Nat) (a : σ),
      List.foldl (filterCall step (s.zmq.allocated + 1) T) a s.zmq.calls = a := by
    intro σ step T a
    apply replay_unrelated
    intro h1 o t hm hx
    have h2 := hc.callsCreated h1 o t hm
    omega
  have hkeys : ∀ {σ : Type} (step : σ → SockOpt → σ) (T : Nat) (a : σ),
      List.foldl (filterCall step (s.zmq.allocated + 1) T) a
        ([ZmqCall.socket (s.zmq.allocated + 1), ZmqCall.connect (s.zmq.allocated + 1) zmqURI] ++
          (keyCalls (s.zmq.allocated + 1) (StdMap.keys s.eventFuncs) ++
           keyCalls (s.zmq.allocated + 1) (StdMap.keys s.serializables)))
      = (if T ∈ StdMap.keys s.serializables then
          step (if T ∈ StdMap.keys s.eventFuncs then step a SockOpt.ZMQ_SUBSCRIBE else a)
            SockOpt.ZMQ_SUBSCRIBE
         else (if T ∈ StdMap.keys s.eventFuncs then step a SockOpt.ZMQ_SUBSCRIBE else a)) := by
    intro σ step T a
    rw [List.foldl_append, List.foldl_append,
      replay_keys step _ T _ _ (StdMap.keys_nodup_of_sorted _ hc.serializablesSorted),
      replay_keys step _ T _ _ (StdMap.keys_nodup_of_sorted _ hc.eventFuncsSorted)]
    simp [filterCall]
  refine ⟨hc.eventFuncsSorted, hc.serializablesSorted, ?_, ?_, ?_, ?_, ?_⟩
  · exact nodup_liveSockets_set _ _ _ hc.socketsDistinct (Or.inr hfresh)
  · intro sock hs
    rcases hlive sock hs with e | e
    · rw [e]
      exact Nat.le_refl _
    · exact Nat.le_succ_of_le (hc.socketsCreated sock e)
  · intro sock o t hm
    rw [hcalls, List.mem_append] at hm
    rcases hm with hm | hm
    · exact Nat.le_succ_of_le (hc.callsCreated sock o t hm)
    · rw [hnew sock o t hm]
      exact Nat.le_refl _
  · intro sock hs T
    rw [hcalls, filterCount_append]
    rcases hlive sock hs with e | e
    · subst e
      have h0 : filterCount (s.zmq.allocated + 1) T s.zmq.calls = 0 := hstart countStep T 0
      rw [h0, hkeys countStep T 0]
      simp only [StdMap.mem_keys_iff]
      rcases StdMap.count_le_one s.eventFuncs T with h1 | h1 <;>
        rcases StdMap.count_le_one s.serializables T with h2 | h2 <;>
        simp [h1, h2, countStep, connected]
    · rw [hold countStep sock T _ e]
      exact hc.counted sock e T
  · intro sock hs T
    rw [hcalls, filterInSet_append]
    rcases hlive sock hs with e | e
    · subst e
      have h0 : filterInSet (s.zmq.allocated + 1) T s.zmq.calls = false := hstart setStep T false
      rw [h0, hkeys setStep T false]
      simp only [StdMap.mem_keys_iff]
      rcases StdMap.count_le_one s.eventFuncs T with h1 | h1 <;>
        rcases StdMap.count_le_one s.serializables T with h2 | h2 <;>
        simp [h1, h2, setStep, connected]
    · rw [hold setStep sock T _ e]
      exact hc.inSet sock e T

theorem consistent_addConnection (env : Env) (s : Impl) (zmqURI : String) (identifier : Nat)
    (r : Bool) (s1 : Impl) (hc : Consistent s)
    (h : addConnection env s zmqURI identifier = Result.ok r s1) : Consistent s1 := by
  rcases addConnection_returns env s zmqURI identifier with ⟨_, e⟩ | ⟨_, _, e⟩ | ⟨_, _, e⟩ <;>
    rw [e] at h <;> injection h with _ h2 <;> rw [← h2]
  · exact hc
  · exact consistent_refused s zmqURI hc
  · exact consistent_connected s zmqURI hc

theorem consistent_updateInstance (env : Env) (s : Impl) (inst : String) (s1 : Impl)
    (hc : Consistent s) (h : updateInstance env s inst = Result.ok () s1) : Consistent s1 := by
  unfold updateInstance at h
  cases hu : _getZmqURI env inst with
  | error what =>
    simp only [hu] at h
    cases h
  | ok zmqURI =>
    simp only [hu] at h
    by_cases h1 : StdMap.count s.subscribers zmqURI = 0
    · by_cases h2 : sessionMismatch env s inst = true
      · simp only [h1, h2, if_true] at h
        injection h with _ h3
        rw [← h3]
        exact hc
      · simp only [h1, h2, if_true, if_false, Bool.false_eq_true] at h
        cases ha : addConnection env s zmqURI
            (env.uint128 (env.browser.get inst env.KEY_INSTANCE)) with
        | ok r s2 =>
          rw [ha] at h
          injection h with _ h3
          rw [← h3]
          exact consistent_addConnection env s _ _ r s2 hc ha
        | raised w s2 =>
          rw [ha] at h
          cases h
    · simp only [h1, if_false] at h
      injection h with _ h3
      rw [← h3]
      exact hc

theorem consistent_updateLoop (env : Env) (l : List String) (s s1 : Impl)
    (hc : Consistent s) (h : updateLoop env l s = Result.ok () s1) : Consistent s1 := by
  induction l generalizing s with
  | nil =>
    simp only [updateLoop] at h
    injection h with _ h3
    rw [← h3]
    exact hc
  | cons inst rest ih =>
    simp only [updateLoop] at h
    cases hu : updateInstance env s inst with
    | ok u s2 =>
      rw [hu] at h
      exact ih s2 (consistent_updateInstance env s inst s2 hc hu) h
    | raised w s2 =>
      rw [hu] at h
      cases h

/-- Every state a subscriber reaches is consistent. -/
theorem consistent_of_reachable (s : Impl) (h : Reachable s) : Consistent s := by
  induction h with
  | init selfInstance session => exact consistent_init selfInstance session
  | registerHandler event func r s1 _ hr ih => exact consistent_registerHandler _ _ _ _ _ ih hr
  | deregisterHandler event r s1 _ hr ih => exact consistent_deregisterHandler _ _ _ _ ih hr
  | subscribe o r s1 _ hr ih => exact consistent_subscribe _ _ _ _ ih hr
  | unsubscribe o r s1 _ hr ih => exact consistent_unsubscribe _ _ _ _ ih hr
  | addConnection env zmqURI identifier r s1 _ hr ih =>
    exact consistent_addConnection _ _ _ _ _ _ ih hr
  | update env s1 _ hr ih => exact consistent_updateLoop _ _ _ _ ih hr

/-! ## The filter invariant -/

/-- C4 (amended): in every reachable state, on every connected connection the
number of filter instances for `T`, counted as the transport counts them,
equals the number of registrations of `T` (callback and stateful object), so a
filter for `T` is active exactly when `T` has a registration; with the filters
read as a set, every filter in the set belongs to a registered type. -/
theorem filters_match_registrations (s : Impl) (h : Reachable s) (uri : String) (sock : Nat)
    (hf : StdMap.find s.subscribers uri = some sock) (h0 : sock ≠ 0) (T : Nat) :
    filterCount sock T s.zmq.calls
        = StdMap.count s.eventFuncs T + StdMap.count s.serializables T ∧
    (0 < filterCount sock T s.zmq.calls ↔
      (hasHandler s T = true ∨ StdMap.find s.serializables T ≠ none)) ∧
    (filterInSet sock T s.zmq.calls = true →
      (hasHandler s T = true ∨ StdMap.find s.serializables T ≠ none)) := by
  have hc := consistent_of_reachable s h
  have hs := mem_liveSockets_of_find s.subscribers uri sock hf h0
  have hcount := hc.counted sock hs T
  have hser : StdMap.count s.serializables T = 1 ↔ StdMap.find s.serializables T ≠ none := by
    unfold StdMap.count
    cases StdMap.find s.serializables T <;> simp
  have hef : StdMap.count s.eventFuncs T = 1 ↔ hasHandler s T = true := by
    unfold hasHandler StdMap.count
    cases StdMap.find s.eventFuncs T <;> simp
  refine ⟨hcount, ?_, ?_⟩
  · rw [hcount, ← hser, ← hef]
    rcases StdMap.count_le_one s.eventFuncs T with h1 | h1 <;>
      rcases StdMap.count_le_one s.serializables T with h2 | h2 <;> simp [h1, h2]
  · intro hin
    rw [← hser, ← hef]
    exact hc.inSet sock hs T hin

theorem reachable_connectedStateful : Reachable connectedStateful :=
  Reachable.deregisterHandler 7 true connectedStateful
    (Reachable.subscribe { addr := 100, typeIdentifier := 7 } true connectedBoth
      (Reachable.registerHandler 7 1 true connectedHandler
        (Reachable.addConnection openEnv "tcp://host:1" 0 true oneConnection
          (Reachable.init 99 "A") (by decide))
        (by decide))
      (by decide))
    (by decide)

theorem filters_match_registrations_witness :
    filterCount 1 7 connectedStateful.zmq.calls
        = StdMap.count connectedStateful.eventFuncs 7
          + StdMap.count connectedStateful.serializables 7 ∧
    (0 < filterCount 1 7 connectedStateful.zmq.calls ↔
      (hasHandler connectedStateful 7 = true ∨
        StdMap.find connectedStateful.serializables 7 ≠ none)) ∧
    (filterInSet 1 7 connectedStateful.zmq.calls = true →
      (hasHandler connectedStateful 7 = true ∨
        StdMap.find connectedStateful.serializables 7 ≠ none)) :=
  filters_match_registrations connectedStateful reachable_connectedStateful "tcp://host:1" 1
    (by decide) (by decide) 7

/-- C4 as stated fails: after `registerHandler( 7 )`, `subscribe` of an object of
type `7` and `deregisterHandler( 7 )`, the connection to `tcp://host:1` is
connected and type `7` still has its stateful registration, but with the
filters read as a set the filter `7` is no longer on the socket. -/
theorem filter_set_loses_registered_type :
    Reachable connectedStateful ∧
    StdMap.find connectedStateful.subscribers "tcp://host:1" = some 1 ∧
    StdMap.find connectedStateful.serializables 7 = some 100 ∧
    filterInSet 1 7 connectedStateful.zmq.calls = false ∧
    filterCount 1 7 connectedStateful.zmq.calls = 1 :=
  ⟨Reachable.deregisterHandler 7 true connectedStateful
    (Reachable.subscribe { addr := 100, typeIdentifier := 7 } true connectedBoth
      (Reachable.registerHandler 7 1 true connectedHandler
        (Reachable.addConnection openEnv "tcp://host:1" 0 true oneConnection
          (Reachable.init 99 "A") (by decide))
        (by decide))
      (by decide))
    (by decide), by decide, by decide, by decide, by decide⟩

/-! ## Discovery passes -/

/-- A step of `update` over an instance whose name `std::stoi` rejects raises
with the state as it was. -/
theorem updateInstance_malformed (env : Env) (s : Impl) (inst what : String)
    (h : _getZmqURI env inst = Except.error what) :
    updateInstance env s inst = Result.raised what s := by
  simp [updateInstance, h]

/-- What one step of `update` does for an instance that resolves to an endpoint:
a new endpoint that passes the session filter and is not the subscriber itself
gets a connect attempt; everything else is passed over. -/
theorem updateInstance_eq (env : Env) (s : Impl) (inst uri : String)
    (h : _getZmqURI env inst = Except.ok uri) :
    updateInstance env s inst =
      if StdMap.count s.subscribers uri = 0 ∧
          sessionMismatch env s inst = false ∧
          env.uint128 (env.browser.get inst env.KEY_INSTANCE) ≠ s.selfInstance then
        (if env.connects uri = true then Result.ok () (connected s uri)
         else Result.ok () (refused s uri))
      else Result.ok () s := by
  unfold updateInstance
  simp only [h]
  by_cases h1 : StdMap.count s.subscribers uri = 0
  · cases h2 : sessionMismatch env s inst with
    | true => simp [h1]
    | false =>
      rcases addConnection_returns env s uri
          (env.uint128 (env.browser.get inst env.KEY_INSTANCE)) with
        ⟨h3, e⟩ | ⟨h3, h4, e⟩ | ⟨h3, h4, e⟩
      · simp [h1, h3, addConnection_self]
      · simp [h1, e, h3, h4]
      · simp [h1, e, h3, h4]
  · simp [h1]

theorem resolves_iff (env : Env) (inst : String) :
    resolves env inst = true ↔ ∃ uri, _getZmqURI env inst = Except.ok uri := by
  unfold resolves
  cases _getZmqURI env inst <;> simp

theorem updateInstance_returns (env : Env) (s : Impl) (inst : String)
    (h : resolves env inst = true) :
    ∃ s1, updateInstance env s inst = Result.ok () s1 := by
  obtain ⟨uri, hu⟩ := (resolves_iff env inst).1 h
  rw [updateInstance_eq env s inst uri hu]
  split
  · split
    · exact ⟨_, rfl⟩
    · exact ⟨_, rfl⟩
  · exact ⟨_, rfl⟩

/-- A pass of `update` over instances that all resolve to an endpoint returns:
a failed connect does not make it raise. -/
theorem updateLoop_returns (env : Env) (l : List String) (s : Impl)
    (h : ∀ inst ∈ l, resolves env inst = true) :
    ∃ s1, updateLoop env l s = Result.ok () s1 := by
  induction l generalizing s with
  | nil => exact ⟨s, rfl⟩
  | cons inst rest ih =>
    obtain ⟨s1, h1⟩ := updateInstance_returns env s inst (h inst (List.mem_cons_self _ _))
    obtain ⟨s2, h2⟩ := ih s1 fun i hi => h i (List.mem_cons_of_mem _ hi)
    exact ⟨s2, by simp [updateLoop, h1, h2]⟩

/-- A step of `update` over an endpoint that is already in the table changes
nothing. -/
theorem updateInstance_known (env : Env) (s : Impl) (inst uri : String)
    (hu : _getZmqURI env inst = Except.ok uri)
    (h : StdMap.count s.subscribers uri ≠ 0) :
    updateInstance env s inst = Result.ok () s := by
  rw [updateInstance_eq env s inst uri hu]
  simp [h]

/-- A step of `update`, whether it returns or raises, leaves the entry of every
endpoint that is in the table as it is, adds no connect attempt for it, and
keeps the registries and the subscriber's identity. -/
theorem updateInstance_keeps (env : Env) (s : Impl) (inst : String) :
    (updateInstance env s inst).state.selfInstance = s.selfInstance ∧
    (updateInstance env s inst).state.session = s.session ∧
    (updateInstance env s inst).state.eventFuncs = s.eventFuncs ∧
    (updateInstance env s inst).state.serializables = s.serializables ∧
    ∀ uri sock, StdMap.find s.subscribers uri = some sock →
      StdMap.find (updateInstance env s inst).state.subscribers uri = some sock ∧
      ∀ h1, ZmqCall.connect h1 uri ∈ (updateInstance env s inst).state.zmq.calls →
        ZmqCall.connect h1 uri ∈ s.zmq.calls := by
  cases hu : _getZmqURI env inst with
  | error what =>
    rw [updateInstance_malformed env s inst what hu]
    exact ⟨rfl, rfl, rfl, rfl, fun uri sock hf => ⟨hf, fun h1 hm => hm⟩⟩
  | ok target =>
    rw [updateInstance_eq env s inst target hu]
    split
    next hc =>
      have hne : ∀ uri sock, StdMap.find s.subscribers uri = some sock → uri ≠ target := by
        intro uri sock hf e
        rw [e, (StdMap.count_eq_zero_iff _ _).1 hc.1] at hf
        cases hf
      split
      · refine ⟨rfl, rfl, rfl, rfl, ?_⟩
        intro uri sock hf
        have hu1 := hne uri sock hf
        refine ⟨by simpa [Result.state, connected, StdMap.find_set_other _ _ _ _ _ hu1]
          using hf, ?_⟩
        intro h1 hm
        simp only [Result.state, connected, List.mem_append, List.mem_cons,
          List.mem_singleton, List.not_mem_nil, or_false] at hm
        rcases hm with ((hm | hm | hm) | hm) | hm
        · exact hm
        · cases hm
        · injection hm with _ e
          exact absurd e hu1
        · simp [keyCalls] at hm
        · simp [keyCalls] at hm
      · refine ⟨rfl, rfl, rfl, rfl, ?_⟩
        intro uri sock hf
        have hu1 := hne uri sock hf
        refine ⟨by simpa [Result.state, refused, StdMap.find_set_other _ _ _ _ _ hu1]
          using hf, ?_⟩
        intro h1 hm
        simp only [Result.state, refused, List.mem_append, List.mem_cons,
          List.mem_singleton, List.not_mem_nil, or_false] at hm
        rcases hm with hm | hm | hm | hm
        · exact hm
        · cases hm
        · injection hm with _ e
          exact absurd e hu1
        · cases hm
    next =>
      exact ⟨rfl, rfl, rfl, rfl, fun uri sock hf => ⟨hf, fun h1 hm => hm⟩⟩

theorem updateLoop_keeps (env : Env) (l : List String) (s : Impl) :
    (updateLoop env l s).state.selfInstance = s.selfInstance ∧
    (updateLoop env l s).state.session = s.session ∧
    (updateLoop env l s).state.eventFuncs = s.eventFuncs ∧
    (updateLoop env l s).state.serializables = s.serializables ∧
    ∀ uri sock, StdMap.find s.subscribers uri = some sock →
      StdMap.find (updateLoop env l s).state.subscribers uri = some sock ∧
      ∀ h1, ZmqCall.connect h1 uri ∈ (updateLoop env l s).state.zmq.calls →
        ZmqCall.connect h1 uri ∈ s.zmq.calls := by
  induction l generalizing s with
  | nil => exact ⟨rfl, rfl, rfl, rfl, fun uri sock hf => ⟨hf, fun h1 hm => hm⟩⟩
  | cons inst rest ih =>
    have hk := updateInstance_keeps env s inst
    cases hu : updateInstance env s inst with
    | raised what s2 =>
      rw [hu] at hk
      simpa [updateLoop, hu] using hk
    | ok u s2 =>
      rw [hu] at hk
      obtain ⟨a1, a2, a3, a4, a5⟩ := hk
      obtain ⟨b1, b2, b3, b4, b5⟩ := ih s2
      simp only [updateLoop, hu]
      simp only [Result.state] at a1 a2 a3 a4 a5
      refine ⟨b1.trans a1, b2.trans a2, b3.trans a3, b4.trans a4, ?_⟩
      intro uri sock hf
      obtain ⟨c1, c2⟩ := a5 uri sock hf
      obtain ⟨d1, d2⟩ := b5 uri sock c1
      exact ⟨d1, fun h1 hm => c2 h1 (d2 h1 hm)⟩

/-- A pass of `update` in which every reported instance resolves to an endpoint
already in the table changes nothing. -/
theorem updateLoop_all_known (env : Env) (l : List String) (s : Impl)
    (h : ∀ inst ∈ l, ∃ uri, _getZmqURI env inst = Except.ok uri ∧
      StdMap.count s.subscribers uri ≠ 0) :
    updateLoop env l s = Result.ok () s := by
  induction l with
  | nil => rfl
  | cons inst rest ih =>
    obtain ⟨uri, hu, hk⟩ := h inst (List.mem_cons_self _ _)
    have h1 := updateInstance_known env s inst uri hu hk
    simp only [updateLoop, h1]
    exact ih fun i hi => h i (List.mem_cons_of_mem _ hi)

/-! ## Uniqueness of registrations -/

/-- Both registries are in strictly increasing key order. -/
theorem registries_sorted_run (s : Impl) (c : Call)
    (h : (StdMap.keys s.eventFuncs).Pairwise (fun a b => a < b) ∧
      (StdMap.keys s.serializables).Pairwise (fun a b => a < b)) :
    (StdMap.keys (c.run s).eventFuncs).Pairwise (fun a b => a < b) ∧
      (StdMap.keys (c.run s).serializables).Pairwise (fun a b => a < b) := by
  cases c with
  | registerHandler event func =>
    cases hf : StdMap.find s.eventFuncs event with
    | none =>
      simp only [Call.run, registerHandler_fresh s event func hf, Result.state]
      exact ⟨StdMap.keys_set_sorted _ _ _ h.1, h.2⟩
    | some g =>
      simp only [Call.run, registerHandler_taken s event func g hf, Result.state]
      exact h
  | deregisterHandler event =>
    cases hf : StdMap.find s.eventFuncs event with
    | none =>
      simp only [Call.run, deregisterHandler_absent s event hf, Result.state]
      exact h
    | some g =>
      simp only [Call.run, deregisterHandler_present s event g hf, Result.state]
      exact ⟨StdMap.keys_erase_sorted _ _ h.1, h.2⟩
  | subscribe o =>
    cases hf : StdMap.find s.serializables o.typeIdentifier with
    | some a =>
      simp only [Call.run, subscribe_taken s o a hf, Result.state]
      exact h
    | none =>
      have hc := StdMap.count_of_find_none _ _ hf
      simp only [Call.run, subscribe, Serializable.getTypeIdentifier, hc, ne_eq,
        not_true_eq_false, if_false, _subscribe]
      cases setOnSockets false SockOpt.ZMQ_SUBSCRIBE o.typeIdentifier s.subscribers s.zmq with
      | error z => exact h
      | ok z => exact ⟨h.1, StdMap.keys_set_sorted _ _ _ h.2⟩
  | unsubscribe o =>
    cases hf : StdMap.find s.serializables o.typeIdentifier with
    | none =>
      simp only [Call.run, unsubscribe_absent s o hf, Result.state]
      exact h
    | some a =>
      have hc : StdMap.count s.serializables o.typeIdentifier ≠ 0 :=
        (StdMap.count_ne_zero_iff _ _).2 ⟨a, hf⟩
      simp only [Call.run, unsubscribe, Serializable.getTypeIdentifier, hc, if_false,
        _unsubscribe]
      cases setOnSockets false SockOpt.ZMQ_UNSUBSCRIBE o.typeIdentifier s.subscribers s.zmq with
      | error z => exact ⟨h.1, StdMap.keys_erase_sorted _ _ h.2⟩
      | ok z => exact ⟨h.1, StdMap.keys_erase_sorted _ _ h.2⟩
  | addConnection env zmqURI identifier =>
    rcases addConnection_returns env s zmqURI identifier with ⟨_, e⟩ | ⟨_, _, e⟩ | ⟨_, _, e⟩ <;>
      simp only [Call.run, e, Result.state] <;> exact h
  | update env =>
    obtain ⟨_, _, e1, e2, _⟩ := updateLoop_keeps env env.browser.getInstances s
    simp only [Call.run, update, e1, e2]
    exact h

theorem registries_sorted_of_visited (s : Impl) (h : Visited s) :
    (StdMap.keys s.eventFuncs).Pairwise (fun a b => a < b) ∧
      (StdMap.keys s.serializables).Pairwise (fun a b => a < b) := by
  induction h with
  | init selfInstance session => simp [Impl.init, StdMap.keys]
  | call c _ ih => exact registries_sorted_run _ c ih

theorem visited_bothKinds : Visited bothKinds :=
  Visited.call (Call.subscribe { addr := 100, typeIdentifier := 7 })
    (Visited.call (Call.registerHandler 7 1) (Visited.init 99 "A"))

/-- C9 (amended): in every state a subscriber passes through, each event type has
at most one callback and at most one stateful object: the keys of each registry
are distinct, and a second registration of the same kind is rejected with the
state unchanged. (The two registries are independent of each other.) -/
theorem registrations_unique_per_kind (s : Impl) (h : Visited s) :
    (StdMap.keys s.eventFuncs).Nodup ∧ (StdMap.keys s.serializables).Nodup ∧
    (∀ T f, hasHandler s T = true → registerHandler s T f = Result.ok false s) ∧
    (∀ o : Serializable, StdMap.find s.serializables o.getTypeIdentifier ≠ none →
      subscribe s o = Result.ok false s) := by
  have hc := registries_sorted_of_visited s h
  refine ⟨StdMap.keys_nodup_of_sorted _ hc.1, StdMap.keys_nodup_of_sorted _ hc.2, ?_, ?_⟩
  · intro T f hT
    obtain ⟨g, hg⟩ := (hasHandler_eq_true_iff s T).1 hT
    exact registerHandler_taken s T f g hg
  · intro o ho
    cases hf : StdMap.find s.serializables o.typeIdentifier with
    | none => exact absurd hf ho
    | some a => exact subscribe_taken s o a hf

theorem registrations_unique_per_kind_witness :
    (StdMap.keys bothKinds.eventFuncs).Nodup ∧ (StdMap.keys bothKinds.serializables).Nodup ∧
    (∀ T f, hasHandler bothKinds T = true →
      registerHandler bothKinds T f = Result.ok false bothKinds) ∧
    (∀ o : Serializable, StdMap.find bothKinds.serializables o.getTypeIdentifier ≠ none →
      subscribe bothKinds o = Result.ok false bothKinds) :=
  registrations_unique_per_kind bothKinds visited_bothKinds

/-- C9 as stated fails: after `registerHandler( 7, 1 )` the call `subscribe` of an
object with type identifier `7` is not rejected; it returns true, and type `7`
then has a callback and a stateful object registered at the same time. -/
theorem callback_and_stateful_coexist :
    registerHandler (Impl.init 99 "A") 7 1 = Result.ok true oneHandler ∧
    subscribe oneHandler { addr := 100, typeIdentifier := 7 } = Result.ok true bothKinds ∧
    StdMap.find bothKinds.eventFuncs 7 = some 1 ∧
    StdMap.find bothKinds.serializables 7 = some 100 := by
  decide

/-! ## Connections -/

/-- C5, the code at a failing input: a second `addConnection` for an endpoint
that is connected returns true, but it replaces socket `1` by a new socket `2`
in the table (socket `1` is not closed) and adds a second poll entry. -/
theorem addConnection_second_call_reconnects :
    addConnection openEnv (Impl.init 99 "A") "tcp://host:1" 0 = Result.ok true oneConnection ∧
    oneConnection.subscribers = [("tcp://host:1", 1)] ∧
    oneConnection.entries = [{ socket := 1, events := ZMQ_POLLIN }] ∧
    addConnection openEnv oneConnection "tcp://host:1" 0 = Result.ok true reconnected ∧
    reconnected.subscribers = [("tcp://host:1", 2)] ∧
    reconnected.entries
      = [{ socket := 1, events := ZMQ_POLLIN }, { socket := 2, events := ZMQ_POLLIN }] ∧
    ZmqCall.close 1 ∉ reconnected.zmq.calls := by
  decide

theorem count_set_ne_zero {V : Type} (m : StdMap String V) (k k2 : String) (v : V)
    (h : k2 = k ∨ StdMap.count m k2 ≠ 0) :
    StdMap.count (StdMap.set stringLess m k v) k2 ≠ 0 := by
  by_cases e : k2 = k
  · subst e
    exact (StdMap.count_ne_zero_iff _ _).2 ⟨v, StdMap.find_set_self _ _ _ _⟩
  · rcases h with h | h
    · exact absurd h e
    · obtain ⟨w, hw⟩ := (StdMap.count_ne_zero_iff _ _).1 h
      exact (StdMap.count_ne_zero_iff _ _).2
        ⟨w, by rw [StdMap.find_set_other _ _ _ _ _ e]; exact hw⟩

theorem tracked_init (selfInstance : Nat) (session : String) :
    Tracked (Impl.init selfInstance session) := by
  constructor <;> simp [Impl.init]

/-- A call that only changes a registry and adds filter calls keeps what is
recorded about connect attempts. -/
theorem tracked_refilter (s s1 : Impl) (opt : SockOpt) (T : Nat) (ht : Tracked s)
    (hsub : s1.subscribers = s.subscribers) (hent : s1.entries = s.entries)
    (halloc : s1.zmq.allocated = s.zmq.allocated)
    (hcalls : s1.zmq.calls = s.zmq.calls ++ checkedCalls opt T s.subscribers) :
    Tracked s1 := by
  constructor
  · intro sock uri hm
    rw [hcalls, List.mem_append] at hm
    rw [hsub]
    rcases hm with hm | hm
    · exact ht.connectsKnown sock uri hm
    · simp [checkedCalls] at hm
  · intro e he
    rw [hent] at he
    rw [halloc]
    exact ht.entriesCreated e he

theorem tracked_refused (s : Impl) (zmqURI : String) (ht : Tracked s) :
    Tracked (refused s zmqURI) := by
  constructor
  · intro sock uri hm
    simp only [refused, List.mem_append, List.mem_cons, List.mem_singleton,
      List.not_mem_nil, or_false] at hm
    apply count_set_ne_zero
    rcases hm with hm | hm | hm | hm
    · exact Or.inr (ht.connectsKnown sock uri hm)
    · cases hm
    · injection hm with _ e
      exact Or.inl e
    · cases hm
  · intro e he
    exact Nat.le_succ_of_le (ht.entriesCreated e he)

theorem tracked_connected (s : Impl) (zmqURI : String) (ht : Tracked s) :
    Tracked (connected s zmqURI) := by
  constructor
  · intro sock uri hm
    simp only [connected, List.mem_append, List.mem_cons, List.mem_singleton,
      List.not_mem_nil, or_false] at hm
    apply count_set_ne_zero
    rcases hm with ((hm | hm | hm) | hm) | hm
    · exact Or.inr (ht.connectsKnown sock uri hm)
    · cases hm
    · injection hm with _ e
      exact Or.inl e
    · simp [keyCalls] at hm
    · simp [keyCalls] at hm
  · intro e he
    simp only [connected, List.mem_append, List.mem_singleton] at he
    rcases he with he | he
    · exact Nat.le_succ_of_le (ht.entriesCreated e he)
    · rw [he]
      exact Nat.le_refl _

theorem tracked_addConnection (env : Env) (s : Impl) (zmqURI : String) (identifier : Nat)
    (r : Bool) (s1 : Impl) (ht : Tracked s)
    (h : addConnection env s zmqURI identifier = Result.ok r s1) : Tracked s1 := by
  rcases addConnection_returns env s zmqURI identifier with ⟨_, e⟩ | ⟨_, _, e⟩ | ⟨_, _, e⟩ <;>
    rw [e] at h <;> injection h with _ h2 <;> rw [← h2]
  · exact ht
  · exact tracked_refused s zmqURI ht
  · exact tracked_connected s zmqURI ht

theorem tracked_updateInstance (env : Env) (s : Impl) (inst : String) (s1 : Impl)
    (ht : Tracked s) (h : updateInstance env s inst = Result.ok () s1) : Tracked s1 := by
  cases hu : _getZmqURI env inst with
  | error what =>
    rw [updateInstance_malformed env s inst what hu] at h
    cases h
  | ok uri =>
    rw [updateInstance_eq env s inst uri hu] at h
    split at h
    · split at h
      · injection h with _ h2
        rw [← h2]
        exact tracked_connected s uri ht
      · injection h with _ h2
        rw [← h2]
        exact tracked_refused s uri ht
    · injection h with _ h2
      rw [← h2]
      exact ht

theorem tracked_updateLoop (env : Env) (l : List String) (s s1 : Impl)
    (ht : Tracked s) (h : updateLoop env l s = Result.ok () s1) : Tracked s1 := by
  induction l generalizing s with
  | nil =>
    simp only [updateLoop] at h
    injection h with _ h3
    rw [← h3]
    exact ht
  | cons inst rest ih =>
    simp only [updateLoop] at h
    cases hu : updateInstance env s inst with
    | ok u s2 =>
      rw [hu] at h
      exact ih s2 (tracked_updateInstance env s inst s2 ht hu) h
    | raised w s2 =>
      rw [hu] at h
      cases h

/-- In every reachable state an endpoint with a connect attempt is in the table
and the poll entries hold created sockets. -/
theorem tracked_of_reachable (s : Impl) (h : Reachable s) : Tracked s := by
  induction h with
  | init selfInstance session => exact tracked_init selfInstance session
  | @registerHandler s0 event func r s1 _ hr ih =>
    cases hf : StdMap.find s0.eventFuncs event with
    | some g =>
      rw [registerHandler_taken s0 event func g hf] at hr
      injection hr with _ h2
      rw [← h2]
      exact ih
    | none =>
      rw [registerHandler_fresh s0 event func hf] at hr
      injection hr with _ h2
      subst h2
      exact tracked_refilter s0 _ SockOpt.ZMQ_SUBSCRIBE event ih rfl rfl rfl rfl
  | @deregisterHandler s0 event r s1 _ hr ih =>
    cases hf : StdMap.find s0.eventFuncs event with
    | none =>
      rw [deregisterHandler_absent s0 event hf] at hr
      injection hr with _ h2
      rw [← h2]
      exact ih
    | some g =>
      rw [deregisterHandler_present s0 event g hf] at hr
      injection hr with _ h2
      subst h2
      exact tracked_refilter s0 _ SockOpt.ZMQ_UNSUBSCRIBE event ih rfl rfl rfl rfl
  | @subscribe s0 o r s1 _ hr ih =>
    rcases subscribe_returns s0 o r s1 hr with ⟨_, h2, _⟩ | ⟨_, h2, _⟩
    · rw [h2]
      exact ih
    · subst h2
      exact tracked_refilter s0 _ SockOpt.ZMQ_SUBSCRIBE o.typeIdentifier ih rfl rfl rfl rfl
  | @unsubscribe s0 o r s1 _ hr ih =>
    rcases unsubscribe_returns s0 o r s1 hr with ⟨_, h2, _⟩ | ⟨_, h2, _⟩
    · rw [h2]
      exact ih
    · subst h2
      exact tracked_refilter s0 _ SockOpt.ZMQ_UNSUBSCRIBE o.typeIdentifier ih rfl rfl rfl rfl
  | addConnection env zmqURI identifier r s1 _ hr ih =>
    exact tracked_addConnection _ _ _ _ _ _ ih hr
  | update env s1 _ hr ih => exact tracked_updateLoop _ _ _ _ ih hr

/-- C7 (amended): a failed connect is memoized. When `update` meets an instance
whose name resolves to an endpoint that is not yet in the table, that passes
the session filter and is not the subscriber itself, and the connect fails,
then `addConnection` returns false, the step of `update` returns, the endpoint
is recorded with a null socket, no poll entry holds a socket on which a
connect to the endpoint was attempted, and the poll entries and both
registries are unchanged. `update` returns whenever every reported name
resolves. In every state in which the endpoint is recorded as failed, every
`update` keeps that entry, makes no connect attempt for the endpoint, passes
over every instance resolving to it without any change, and changes nothing at
all when all reported instances resolve to it. -/
theorem failed_peer_memoized (env : Env) (s : Impl) (inst uri : String)
    (hs : Reachable s) (huri : _getZmqURI env inst = Except.ok uri)
    (hnew : StdMap.count s.subscribers uri = 0)
    (hsess : sessionMismatch env s inst = false)
    (hi : env.uint128 (env.browser.get inst env.KEY_INSTANCE) ≠ s.selfInstance)
    (hc : env.connects uri = false) :
    (∃ s1, addConnection env s uri (env.uint128 (env.browser.get inst env.KEY_INSTANCE))
          = Result.ok false s1 ∧
      updateInstance env s inst = Result.ok () s1 ∧
      StdMap.find s1.subscribers uri = some 0 ∧
      (∀ e ∈ s1.entries, ∀ sock, ZmqCall.connect sock uri ∈ s1.zmq.calls → e.socket ≠ sock) ∧
      s1.entries = s.entries ∧ s1.eventFuncs = s.eventFuncs ∧
      s1.serializables = s.serializables) ∧
    (∀ (env0 : Env) (s0 : Impl),
      (∀ i ∈ env0.browser.getInstances, resolves env0 i = true) →
      ∃ s1, update env0 s0 = Result.ok () s1) ∧
    (∀ (s2 : Impl) (env2 : Env), StdMap.find s2.subscribers uri = some 0 →
      (StdMap.find (update env2 s2).state.subscribers uri = some 0 ∧
        ∀ sock, ZmqCall.connect sock uri ∈ (update env2 s2).state.zmq.calls →
          ZmqCall.connect sock uri ∈ s2.zmq.calls) ∧
      (∀ i, _getZmqURI env2 i = Except.ok uri →
        updateInstance env2 s2 i = Result.ok () s2) ∧
      ((∀ i ∈ env2.browser.getInstances, _getZmqURI env2 i = Except.ok uri) →
        update env2 s2 = Result.ok () s2)) := by
  have ht := tracked_of_reachable s hs
  refine ⟨⟨refused s uri, addConnection_refused env s uri _ hi hc, ?_, ?_, ?_, rfl, rfl, rfl⟩,
    fun env0 s0 h0 => updateLoop_returns env0 _ s0 h0, ?_⟩
  · rw [updateInstance_eq env s inst uri huri]
    simp [hnew, hsess, hi, hc]
  · exact StdMap.find_set_self _ _ _ _
  · intro e he sock hm
    have he1 : e ∈ s.entries := he
    have hle := ht.entriesCreated e he1
    simp only [refused, List.mem_append, List.mem_cons, List.mem_singleton,
      List.not_mem_nil, or_false] at hm
    rcases hm with hm | hm | hm | hm
    · exact absurd hnew (ht.connectsKnown sock uri hm)
    · cases hm
    · injection hm with e1 _
      omega
    · cases hm
  · intro s2 env2 hf
    have hknown : StdMap.count s2.subscribers uri ≠ 0 :=
      (StdMap.count_ne_zero_iff _ _).2 ⟨0, hf⟩
    refine ⟨?_, ?_, ?_⟩
    · obtain ⟨_, _, _, _, hk⟩ := updateLoop_keeps env2 env2.browser.getInstances s2
      exact hk uri 0 hf
    · intro i he
      exact updateInstance_known env2 s2 i uri he hknown
    · intro hall
      apply updateLoop_all_known
      intro i hmem
      exact ⟨uri, hall i hmem, hknown⟩

theorem failed_peer_memoized_witness :
    ∃ s1, addConnection closedEnv (Impl.init 99 "A") "down"
          (closedEnv.uint128 (closedEnv.browser.get "down:1" closedEnv.KEY_INSTANCE))
          = Result.ok false s1 ∧
      updateInstance closedEnv (Impl.init 99 "A") "down:1" = Result.ok () s1 ∧
      StdMap.find s1.subscribers "down" = some 0 ∧
      (∀ e ∈ s1.entries, ∀ sock,
        ZmqCall.connect sock "down" ∈ s1.zmq.calls → e.socket ≠ sock) ∧
      s1.entries = (Impl.init 99 "A").entries ∧
      s1.eventFuncs = (Impl.init 99 "A").eventFuncs ∧
      s1.serializables = (Impl.init 99 "A").serializables :=
  (failed_peer_memoized closedEnv (Impl.init 99 "A") "down:1" "down" (Reachable.init 99 "A")
    (by decide) (by decide) (by decide) (by decide) (by decide)).1

/-- C7 as stated fails in two ways. After the connect to the first reported
peer has failed and the peer is recorded with a null socket, `update` raises
at the next reported instance, whose port is not a number. And when
`addConnection` is called for an endpoint that is connected and the connect
now fails, the endpoint is recorded with a null socket while the poll entry of
its first socket stays. -/
theorem failed_connect_raise_and_poll_entry :
    update malformedEnv (Impl.init 99 "A")
      = Result.raised invalidArgument (refused (Impl.init 99 "A") "down") ∧
    StdMap.find (refused (Impl.init 99 "A") "down").subscribers "down" = some 0 ∧
    oneConnection.entries = [{ socket := 1, events := ZMQ_POLLIN }] ∧
    ZmqCall.connect 1 "tcp://host:1" ∈ oneConnection.zmq.calls ∧
    addConnection closedEnv oneConnection "tcp://host:1" 0
      = Result.ok false refusedAfterConnect ∧
    StdMap.find refusedAfterConnect.subscribers "tcp://host:1" = some 0 ∧
    refusedAfterConnect.entries = [{ socket := 1, events := ZMQ_POLLIN }] := by
  decide

/-- C8, the code at a failing input: with one peer that could not be connected
in the table, `registerHandler` of a fresh type returns true, but `subscribe`
of an object of a fresh type raises and registers nothing, and `unsubscribe` of
a subscribed object raises after it has removed the registration. -/
theorem subscribe_raises_with_failed_peer :
    addConnection closedEnv (Impl.init 99 "A") "tcp://down:1" 0 = Result.ok false failedPeer ∧
    failedPeer.subscribers = [("tcp://down:1", 0)] ∧
    (∃ s1, registerHandler failedPeer 7 1 = Result.ok true s1) ∧
    StdMap.find failedPeer.serializables 7 = none ∧
    subscribe failedPeer { addr := 100, typeIdentifier := 7 }
      = Result.raised filterError failedPeer ∧
    StdMap.find failedPeerStateful.serializables 7 = some 100 ∧
    unsubscribe failedPeerStateful { addr := 100, typeIdentifier := 7 }
      = Result.raised filterError { failedPeerStateful with serializables := [] } := by
  refine ⟨by decide, by decide, ⟨_, registerHandler_fresh failedPeer 7 1 (by decide)⟩,
    by decide, by decide, by decide, by decide⟩

/-- The steps of `update` over records that carry the subscriber's own instance
identifier and whose name resolves can be left out. -/
theorem updateLoop_skips_self (env : Env) (l : List String) (s : Impl) :
    updateLoop env l s
      = updateLoop env
          (l.filter fun inst =>
            decide (env.uint128 (env.browser.get inst env.KEY_INSTANCE) ≠ s.selfInstance)
              || !resolves env inst) s := by
  induction l generalizing s with
  | nil => rfl
  | cons inst rest ih =>
    by_cases hself : env.uint128 (env.browser.get inst env.KEY_INSTANCE) = s.selfInstance
    · cases hu : _getZmqURI env inst with
      | ok uri =>
        have h1 : updateInstance env s inst = Result.ok () s := by
          rw [updateInstance_eq env s inst uri hu]
          simp [hself]
        have hr : resolves env inst = true := by simp [resolves, hu]
        simp only [updateLoop, h1, List.filter, hself, hr, ne_eq, not_true_eq_false,
          decide_False, Bool.not_true, Bool.or_self]
        exact ih s
      | error what =>
        have h1 := updateInstance_malformed env s inst what hu
        have hr : resolves env inst = false := by simp [resolves, hu]
        simp only [updateLoop, h1, List.filter, hself, hr, ne_eq, not_true_eq_false,
          decide_False, Bool.not_false, Bool.or_true]
    · have hk := (updateInstance_keeps env s inst).1
      cases hu : updateInstance env s inst with
      | ok u s1 =>
        rw [hu] at hk
        simp only [Result.state] at hk
        simp only [updateLoop, hu, List.filter, hself, ne_eq, not_false_eq_true, decide_True,
          Bool.true_or]
        rw [ih s1, hk]
      | raised what s1 =>
        simp only [updateLoop, hu, List.filter, hself, ne_eq, not_false_eq_true, decide_True,
          Bool.true_or]

/-- C10: `addConnection` with the subscriber's own instance identifier returns
true and leaves the whole state as it was (table, poll entries, registries,
transport); hence a step of `update` over a record with that identifier changes
nothing (it returns when the name of the record resolves, and raises before
any change otherwise), and `update` does what it does on the discovery result
without the records that carry the identifier and resolve. -/
theorem no_self_connection (env : Env) (s : Impl) (zmqURI : String) :
    addConnection env s zmqURI s.selfInstance = Result.ok true s ∧
    (∀ inst, env.uint128 (env.browser.get inst env.KEY_INSTANCE) = s.selfInstance →
      (updateInstance env s inst).state = s ∧
      (resolves env inst = true → updateInstance env s inst = Result.ok () s)) ∧
    update env s
      = updateLoop env
          (env.browser.getInstances.filter fun inst =>
            decide (env.uint128 (env.browser.get inst env.KEY_INSTANCE) ≠ s.selfInstance)
              || !resolves env inst) s := by
  refine ⟨addConnection_self env s zmqURI, ?_, updateLoop_skips_self env _ s⟩
  intro inst hself
  cases hu : _getZmqURI env inst with
  | ok uri =>
    have h1 : updateInstance env s inst = Result.ok () s := by
      rw [updateInstance_eq env s inst uri hu]
      simp [hself]
    exact ⟨by rw [h1]; rfl, fun _ => h1⟩
  | error what =>
    have h1 := updateInstance_malformed env s inst what hu
    refine ⟨by rw [h1]; rfl, ?_⟩
    intro hr
    simp [resolves, hu] at hr

theorem no_self_connection_witness :
    updateInstance selfEnv oneHandler "host:1" = Result.ok () oneHandler :=
  ((no_self_connection selfEnv oneHandler "tcp://host:1").2.1 "host:1" (by decide)).2
    (by decide)

/-! ## Construction -/

/-- A subscriber a constructor produces is in a reachable state. -/
theorem reachable_of_constructed (env : Env) (selfInstance : Nat) (uri : URI)
    (session : String) (s : Impl)
    (h : Impl.ofSession env selfInstance session = Except.ok s ∨
      Impl.ofURI env selfInstance uri = Except.ok s ∨
      Impl.ofURISession env selfInstance uri session = Except.ok s) : Reachable s := by
  have hupd : ∀ s0, Reachable s0 →
      (match update env s0 with
        | Result.ok _ s1 => Except.ok s1
        | Result.raised what _ => Except.error what) = Except.ok s → Reachable s := by
    intro s0 h0 hm
    cases hu : update env s0 with
    | ok u s1 =>
      rw [hu] at hm
      injection hm with hm
      subst hm
      exact Reachable.update env s1 h0 hu
    | raised w s1 =>
      rw [hu] at hm
      cases hm
  have hadd : ∀ s0, Reachable s0 →
      (match addConnection env s0 (env.buildZmqURIOf uri) 0 with
        | Result.ok true s1 => Except.ok s1
        | Result.ok false _ => Except.error "Cannot connect subscriber to "
        | Result.raised what _ => Except.error what) = Except.ok s → Reachable s := by
    intro s0 h0 hm
    cases ha : addConnection env s0 (env.buildZmqURIOf uri) 0 with
    | ok r s1 =>
      rw [ha] at hm
      cases r with
      | true =>
        injection hm with hm
        subst hm
        exact Reachable.addConnection env _ 0 true s1 h0 ha
      | false => cases hm
    | raised w s1 =>
      rw [ha] at hm
      cases hm
  rcases h with h | h | h
  · unfold Impl.ofSession at h
    generalize (if session = env.DEFAULT_SESSION then env.getDefaultSession else session)
      = sess at h
    by_cases c1 : (Impl.init selfInstance sess).session = env.NULL_SESSION ∨ session = ""
    · rw [if_pos c1] at h
      cases h
    · rw [if_neg c1] at h
      by_cases c2 : env.isAvailable = false
      · rw [if_pos c2] at h
        cases h
      · rw [if_neg c2] at h
        exact hupd _ (Reachable.init _ _) h
  · unfold Impl.ofURI at h
    by_cases c1 : uri.host = "" ∨ uri.port = 0
    · rw [if_pos c1] at h
      cases h
    · rw [if_neg c1] at h
      exact hadd _ (Reachable.init _ _) h
  · unfold Impl.ofURISession at h
    generalize (if session = env.DEFAULT_SESSION then env.getDefaultSession else session)
      = sess at h
    by_cases c1 : (Impl.init selfInstance sess).session = env.NULL_SESSION ∨ session = ""
    · rw [if_pos c1] at h
      cases h
    · rw [if_neg c1] at h
      by_cases c3 : uri.host = "" ∨ uri.port = 0
      · rw [if_pos c3] at h
        by_cases c2 : env.isAvailable = false
        · rw [if_pos c2] at h
          cases h
        · rw [if_neg c2] at h
          exact hupd _ (Reachable.init _ _) h
      · rw [if_neg c3] at h
        exact hadd _ (Reachable.init _ _) h

/-! ## Messages without a body, and messages nobody registered for -/

theorem wireBytes_length (T : Nat) : ¬ (wireBytes T).length < 16 := by
  simp [wireBytes, toLE_length]

/-- C11: for a registered type `T`, a message of frame 1 only and a message of
frame 1 followed by a frame 2 of length zero are delivered differently. To a
callback the first comes as an event on which no data was set, the second as
an event with data set, of size 0; for a stateful object the first only calls
`notifyUpdated`, the second calls `fromBinary` on a buffer of size 0 and then
`notifyUpdated`. -/
theorem bodyless_differs_from_empty (b : Build) (s : Impl) (T : Nat) (rest : List Frame)
    (more2 : Bool) (hT : T < 2 ^ 128) :
    (∀ f, StdMap.find s.eventFuncs T = some f → StdMap.find s.serializables T = none →
      process b s ({ data := wireBytes T, more := false } :: rest)
        = Processed.done [Delivery.callback f { type := T, data := none, size := 0 }] rest ∧
      process b s ({ data := wireBytes T, more := true } :: { data := [], more := more2 } :: rest)
        = Processed.done [Delivery.callback f { type := T, data := some [], size := 0 }] rest ∧
      process b s ({ data := wireBytes T, more := false } :: rest)
        ≠ process b s
            ({ data := wireBytes T, more := true } :: { data := [], more := more2 } :: rest)) ∧
    (∀ obj, StdMap.find s.serializables T = some obj →
      process b s ({ data := wireBytes T, more := false } :: rest)
        = Processed.done [Delivery.notifyUpdated obj] rest ∧
      process b s ({ data := wireBytes T, more := true } :: { data := [], more := more2 } :: rest)
        = Processed.done [Delivery.fromBinary obj [] 0, Delivery.notifyUpdated obj] rest ∧
      process b s ({ data := wireBytes T, more := false } :: rest)
        ≠ process b s
            ({ data := wireBytes T, more := true } :: { data := [], more := more2 } :: rest)) := by
  have hl := wireBytes_length T
  have hd := decodeType_wireBytes b T hT
  constructor
  · intro f hf hs
    have h1 : process b s ({ data := wireBytes T, more := false } :: rest)
        = Processed.done [Delivery.callback f { type := T, data := none, size := 0 }] rest := by
      simp [process, hl, hd, hf, hs, Event.new]
    have h2 : process b s
        ({ data := wireBytes T, more := true } :: { data := [], more := more2 } :: rest)
        = Processed.done [Delivery.callback f { type := T, data := some [], size := 0 }]
            rest := by
      simp [process, hl, hd, hf, hs, Event.new, Event.setData]
    refine ⟨h1, h2, ?_⟩
    rw [h1, h2]
    simp
  · intro obj hs
    have h1 : process b s ({ data := wireBytes T, more := false } :: rest)
        = Processed.done [Delivery.notifyUpdated obj] rest := by
      simp [process, hl, hd, hs]
    have h2 : process b s
        ({ data := wireBytes T, more := true } :: { data := [], more := more2 } :: rest)
        = Processed.done [Delivery.fromBinary obj [] 0, Delivery.notifyUpdated obj] rest := by
      simp [process, hl, hd, hs]
    refine ⟨h1, h2, ?_⟩
    rw [h1, h2]
    simp

theorem bodyless_differs_from_empty_witness :
    process { littleEndian := true, ndebug := true } oneStateful
        [{ data := wireBytes 7, more := false }]
      = Processed.done [Delivery.notifyUpdated 100] [] ∧
    process { littleEndian := true, ndebug := true } oneStateful
        [{ data := wireBytes 7, more := true }, { data := [], more := false }]
      = Processed.done [Delivery.fromBinary 100 [] 0, Delivery.notifyUpdated 100] [] ∧
    process { littleEndian := true, ndebug := true } oneStateful
        [{ data := wireBytes 7, more := false }]
      ≠ process { littleEndian := true, ndebug := true } oneStateful
          [{ data := wireBytes 7, more := true }, { data := [], more := false }] :=
  (bodyless_differs_from_empty { littleEndian := true, ndebug := true } oneStateful 7 [] false
    (by norm_num)).2 100 (by decide)

/-- C14: for a message whose frame 1 carries a type with neither a callback nor
a stateful object, `process` first takes the whole message off the queue
(frame 1, and frame 2 exactly when frame 1 has the more flag) and invokes no
handler; then a build without `NDEBUG` raises, and a build with `NDEBUG`
returns. `process` assigns to no data member either way. -/
theorem process_unregistered (b : Build) (s : Impl) (msg : Frame) (rest : List Frame)
    (hl : 16 ≤ msg.data.length)
    (hf : StdMap.find s.eventFuncs (decodeType b msg.data) = none)
    (hs : StdMap.find s.serializables (decodeType b msg.data) = none) :
    (msg.more = false →
      (b.ndebug = false →
        process b s (msg :: rest) = Processed.raised "Got unsubscribed event" [] rest) ∧
      (b.ndebug = true → process b s (msg :: rest) = Processed.done [] rest)) ∧
    (msg.more = true → ∀ body : Frame,
      (b.ndebug = false →
        process b s (msg :: body :: rest)
          = Processed.raised "Got unsubscribed event" [] rest) ∧
      (b.ndebug = true → process b s (msg :: body :: rest) = Processed.done [] rest)) := by
  have hlen : ¬ msg.data.length < 16 := by omega
  constructor
  · intro hm
    constructor <;> intro hn <;> simp [process, hlen, hf, hs, hm, hn]
  · intro hm body
    constructor <;> intro hn <;> simp [process, hlen, hf, hs, hm, hn]

theorem process_unregistered_witness :
    16 ≤ (wireBytes 8).length ∧
    process { littleEndian := true, ndebug := false } oneHandler
        [{ data := wireBytes 8, more := true }, { data := [1, 2], more := false },
         { data := wireBytes 7, more := false }]
      = Processed.raised "Got unsubscribed event" [] [{ data := wireBytes 7, more := false }] :=
  ⟨by decide,
    (((process_unregistered { littleEndian := true, ndebug := false } oneHandler
      { data := wireBytes 8, more := true } [{ data := wireBytes 7, more := false }]
      (by decide) (by decide) (by decide)).2 rfl) { data := [1, 2], more := false }).1 rfl⟩

/-! ## The bytes of a filter and the bytes of frame 1 -/

theorem toLE_lt (n v : Nat) : ∀ x ∈ toLE n v, x < 256 := by
  induction n generalizing v with
  | zero => simp [toLE]
  | succ n ih =>
    intro x hx
    simp only [toLE, List.mem_cons] at hx
    rcases hx with e | e
    · rw [e]
      exact Nat.mod_lt _ (by norm_num)
    · exact ih _ x e

theorem map_mod_of_lt (l : List Nat) (h : ∀ x ∈ l, x < 256) :
    l.map (fun x => x % 256) = l := by
  induction l with
  | nil => rfl
  | cons a r ih =>
    have ha : a % 256 = a := Nat.mod_eq_of_lt (h a (List.mem_cons_self _ _))
    simp [ha, ih fun x hx => h x (List.mem_cons_of_mem _ hx)]

/-- A 16-byte string is determined by its little endian value. -/
theorem eq_toLE_of_fromLE (l : List Nat) (hl : l.length = 16) (hb : ∀ x ∈ l, x < 256) :
    l = toLE 16 (fromLE l) := by
  have h := toLE_fromLE l
  rw [hl, map_mod_of_lt l hb] at h
  exact h.symm

theorem passesFilter_iff (filter data : List Nat) :
    passesFilter filter data = true ↔ data.take filter.length = filter := by
  induction filter generalizing data with
  | nil => simp [passesFilter]
  | cons f r ih =>
    cases data with
    | nil => simp [passesFilter]
    | cons d t =>
      simp only [passesFilter, Bool.and_eq_true, beq_iff_eq, ih, List.length_cons,
        List.take_succ_cons, List.cons.injEq]
      constructor
      · rintro ⟨h1, h2⟩
        exact ⟨h1.symm, h2⟩
      · rintro ⟨h1, h2⟩
        exact ⟨h1.symm, h2⟩

/-- On a host that is not little endian the bytes handed to the transport for a
type decode, in `process`, to the byte-swapped type. -/
theorem decodeType_topicBytes (b : Build) (T : Nat) (hT : T < 2 ^ 128) :
    decodeType b (topicBytes b T) = if b.littleEndian then T else byteswap T := by
  have h16 : (256 : Nat) ^ 16 = 2 ^ 128 := by norm_num
  have hmod : T % 256 ^ 16 = T := by
    rw [h16]
    exact Nat.mod_eq_of_lt hT
  cases hb : b.littleEndian with
  | true =>
    have : topicBytes b T = wireBytes T := by simp [topicBytes, storeHost, hb, wireBytes]
    rw [this, decodeType_wireBytes b T hT]
    simp
  | false =>
    have hlen : ((toLE 16 T).reverse).length = 16 := by simp [toLE_length]
    have ht : ((toLE 16 T).reverse).take 16 = (toLE 16 T).reverse := by
      rw [← hlen]
      exact List.take_length _
    simp only [decodeType, topicBytes, storeHost, hb, loadHost, Bool.false_eq_true, if_false]
    rw [ht, List.reverse_reverse, fromLE_toLE, hmod]

/-- On a little endian host the filter for `T` is the frame 1 of `T`: a frame
passes the filter exactly when `process` decodes it to `T`. -/
theorem filter_agrees_little_endian (b : Build) (hb : b.littleEndian = true) (T : Nat)
    (hT : T < 2 ^ 128) (data : List Nat) (hl : 16 ≤ data.length) (hd : ∀ x ∈ data, x < 256) :
    topicBytes b T = wireBytes T ∧
    (passesFilter (topicBytes b T) data = true ↔ decodeType b data = T) := by
  have htb : topicBytes b T = wireBytes T := by simp [topicBytes, storeHost, hb, wireBytes]
  refine ⟨htb, ?_⟩
  have h16 : (256 : Nat) ^ 16 = 2 ^ 128 := by norm_num
  have hlen : (data.take 16).length = 16 := by simp [List.length_take, hl]
  have hbytes : ∀ x ∈ data.take 16, x < 256 := fun x hx => hd x (List.mem_of_mem_take hx)
  have hdec : decodeType b data = fromLE (data.take 16) := by
    simp [decodeType, loadHost, hb]
  rw [passesFilter_iff, htb, hdec]
  unfold wireBytes
  rw [toLE_length]
  constructor
  · intro h
    rw [h, fromLE_toLE, h16]
    exact Nat.mod_eq_of_lt hT
  · intro h
    rw [← h]
    exact eq_toLE_of_fromLE _ hlen hbytes

/-- C13, the code at a failing input: on a host that is not little endian,
`registerHandler( 1, 5 )` on a connected subscriber hands the transport the
type `1` as it lies in memory, `00 .. 00 01`. The frame 1 that `process`
decodes to the key `1` is `01 00 .. 00`: it does not pass that filter, and the
bytes of the filter decode to the key `2 ^ 120`. -/
theorem filter_bytes_differ_big_endian :
    connectedTypeOne.zmq.calls.getLast? = some (ZmqCall.setsockopt 1 SockOpt.ZMQ_SUBSCRIBE 1) ∧
    topicBytes bigEndianBuild 1 = [0, 0, 0, 0, 0, 0, 0, 0, 0, 0, 0, 0, 0, 0, 0, 1] ∧
    wireBytes 1 = [1, 0, 0, 0, 0, 0, 0, 0, 0, 0, 0, 0, 0, 0, 0, 0] ∧
    decodeType bigEndianBuild (wireBytes 1) = 1 ∧
    decodeType bigEndianBuild (topicBytes bigEndianBuild 1) = 2 ^ 120 ∧
    passesFilter (topicBytes bigEndianBuild 1) (wireBytes 1) = false ∧
    process bigEndianBuild connectedTypeOne [{ data := wireBytes 1, more := false }]
      = Processed.done [Delivery.callback 5 { type := 1, data := none, size := 0 }] [] := by
  decide

/-! ## Port selection of the broker -/

/-- C12: when the port derived from a service name is in use, the construction
of a broker for that name fails with `PORT_FIXED`, and succeeds with
`PORT_FIXED_OR_RANDOM` on a port that differs from the derived one. -/
theorem broker_port_selection (derive : String → Nat) (os : Ports) (name : String)
    (h : derive name ∈ os.bound) :
    (∃ what, Broker.named derive os name PortSelection.PORT_FIXED = Except.error what) ∧
    (∃ broker, Broker.named derive os name PortSelection.PORT_FIXED_OR_RANDOM
        = Except.ok broker ∧ broker.port ≠ derive name ∧ broker.port ∉ os.bound) := by
  have h0 : derive name ≠ 0 := fun e => os.zeroFree (e ▸ h)
  have hb : os.bind (derive name) = none := by simp [Ports.bind, h0, h]
  have he : os.bind 0 = some os.ephemeral := by simp [Ports.bind]
  constructor
  · exact ⟨"Cannot connect broker", by simp [Broker.named, Broker.onPort, hb]⟩
  · refine ⟨{ port := os.ephemeral }, by simp [Broker.named, Broker.onPort, hb, he], ?_,
      os.ephemeralFree⟩
    intro e
    have e1 : os.ephemeral = derive name := e
    exact os.ephemeralFree (e1 ▸ h)

theorem broker_port_selection_witness :
    (∃ what, Broker.named (fun _ => 4242) busyPorts "zeq::connection::test_named_broker"
        PortSelection.PORT_FIXED = Except.error what) ∧
    (∃ broker, Broker.named (fun _ => 4242) busyPorts "zeq::connection::test_named_broker"
        PortSelection.PORT_FIXED_OR_RANDOM = Except.ok broker ∧
      broker.port ≠ (fun _ : String => 4242) "zeq::connection::test_named_broker" ∧
      broker.port ∉ busyPorts.bound) :=
  broker_port_selection (fun _ => 4242) busyPorts "zeq::connection::test_named_broker"
    (by decide)

end Zeq
